import Mathlib

/-
Verification of the CloudScope storage layer (src/adapters/storage) against
its specification.

The development shallowly embeds the three storage backends:
 * FileBasedAssetRepository / FileBasedRelationshipRepository
   (file_repository.py): per-entity files plus three JSON secondary indices,
   modelled as association lists; file existence for an id is equivalent to
   the id being a key of the `files` map (the shard directory is a pure
   function of the id).
 * SQLiteAssetRepository / SQLiteRelationshipRepository
   (sqlite_repository.py): tables modelled as row lists; the connection
   wrapper commits on success and rolls back on exception, so every modelled
   operation returns the post-transaction state.
 * MemgraphAssetRepository / MemgraphRelationshipRepository
   (memgraph_repository.py): a node/edge graph plus the fallback wiring
   (an internal file-backed store used when the Memgraph connection is
   unavailable).

Python dicts are embedded as insertion-ordered association lists
(`dictGet`/`dictSet`/`dictDel` mirror `d[k]`, `d[k] = v`, `del d[k]`);
`list.remove` is embedded by `pyListRemove`, which fails (ValueError) when
the element is absent, exactly as in Python.  Exceptions are embedded with
`Except`: mutating operations return the post-operation state together with
the result, so a raised exception can leave a mutated state behind, exactly
as in the source.  I/O faults (a write failing for external reasons) are
modelled for `FileBasedAssetRepository.save` by `saveWithFault`, which
executes a prefix of the operation's constituent file writes and then
raises.  Float arithmetic of the statistics code is modelled with exact
rationals, and Python's `round(x, n)` by round-half-to-even on rationals.
-/

namespace CloudScope

/-! ## Python dict and list primitives -/

/-- Lookup `d[k]` in an insertion-ordered association list, `None` if absent. -/
def dictGet {α : Type} : List (String × α) → String → Option α
  | [], _ => none
  | (k', v) :: rest, k => if k' = k then some v else dictGet rest k

/-- Assignment `d[k] = v`: replace the first binding of `k` in place, or
append a new binding at the end, matching Python dict insertion order. -/
def dictSet {α : Type} : List (String × α) → String → α → List (String × α)
  | [], k, v => [(k, v)]
  | (k', v') :: rest, k, v =>
      if k' = k then (k, v) :: rest else (k', v') :: dictSet rest k v

/-- Deletion `del d[k]`: drop the first binding of `k` (total here; the
source only deletes keys it has just looked up). -/
def dictDel {α : Type} : List (String × α) → String → List (String × α)
  | [], _ => []
  | (k', v') :: rest, k => if k' = k then rest else (k', v') :: dictDel rest k

/-- Python `l.remove(x)`: remove the first occurrence of `x`, raising
ValueError when `x` is not present. -/
def pyListRemove (l : List String) (x : String) : Except String (List String) :=
  if x ∈ l then .ok (l.erase x) else .error "ValueError: list.remove(x): x not in list"

/-! ## Domain models (src/domain/models/asset.py, relationship.py)

Only the fields the verified claims depend on are carried; timestamps are
modelled as natural-number clocks.  Validation (closed enumerations, score
ranges) happens at construction in the source and is orthogonal to the
storage claims. -/

structure Asset where
  assetId : String
  assetType : String
  provider : String
  name : String
  tags : List (String × String)
  createdAt : Nat
  updatedAt : Nat
deriving DecidableEq

structure Relationship where
  relationshipId : String
  sourceId : String
  targetId : String
  relationshipType : String
  confidence : ℚ
  createdAt : Nat
  updatedAt : Nat
deriving DecidableEq

/-! ## Error taxonomy (src/ports/repository.py)

In Python all five classes derive from `Exception`, with `RepositoryError`
the base of the other four.  A constructor here records the dynamic class of
the raised exception; `message` recovers the `str(e)` interpolated by the
wrapping handlers. -/

inductive RepoErr where
  | repositoryError (msg : String)
  | assetNotFound (msg : String)
  | relationshipNotFound (msg : String)
  | duplicateAsset (msg : String)
  | duplicateRelationship (msg : String)
deriving DecidableEq

def RepoErr.message : RepoErr → String
  | .repositoryError m => m
  | .assetNotFound m => m
  | .relationshipNotFound m => m
  | .duplicateAsset m => m
  | .duplicateRelationship m => m

/-- Test for the `DuplicateAssetError` dynamic class (used by the
`except DuplicateAssetError` clause of `save_batch`). -/
def RepoErr.isDuplicateAsset : RepoErr → Bool
  | .duplicateAsset _ => true
  | _ => false

/-- Test for the `DuplicateRelationshipError` dynamic class. -/
def RepoErr.isDuplicateRelationship : RepoErr → Bool
  | .duplicateRelationship _ => true
  | _ => false

end CloudScope

namespace CloudScope

/-- Exception in flight inside a `try` block: repository exceptions plus the
ValueError that `list.remove` can raise inside `_update_index`. -/
inductive PyExc where
  | repo (e : RepoErr)
  | valueError (msg : String)
  | keyError (key : String)
  | typeError (msg : String)
deriving DecidableEq

def PyExc.message : PyExc → String
  | .repo e => e.message
  | .valueError m => m
  | .keyError k => "KeyError: " ++ k
  | .typeError m => m

/-! ## File-backed asset store (src/adapters/storage/file_repository.py)

State: the per-asset files (keyed by `asset_id`; `_get_asset_path` is a pure
function of the id, so file existence is key membership) and the three JSON
secondary index maps of `.indices/`. -/

structure FileBasedAssetRepository where
  files : List (String × Asset)
  byType : List (String × List String)
  byProvider : List (String × List String)
  byTags : List (String × List String)
deriving DecidableEq

namespace FileBasedAssetRepository

/-- Fresh repository: empty directory, `_init_indices` writes three empty
index maps. -/
def empty : FileBasedAssetRepository := ⟨[], [], [], []⟩

/-- Tag index key, from the source interpolation of key and value. -/
def tagStr (t : String × String) : String := t.1 ++ "=" ++ t.2

/-- Add branch of `_update_index` for one index map: create the key with an
empty list when absent, then append the id unless already present. -/
def indexAdd (idx : List (String × List String)) (key id : String) :
    List (String × List String) :=
  let l := (dictGet idx key).getD []
  dictSet idx key (if id ∈ l then l else l ++ [id])

/-- Add branch of the tag-index loop of `_update_index`: one `indexAdd` per
tag of the asset, accumulated in memory before the single file write. -/
def addTags (idx : List (String × List String)) (id : String) :
    List (String × String) → List (String × List String)
  | [] => idx
  | t :: ts => addTags (indexAdd idx (tagStr t) id) id ts

/-- Remove branch of `_update_index` for one index map: when the key is
present, `list.remove` the id (ValueError if absent, as in Python) and drop
the key entirely once its list is empty. -/
def indexRemove (idx : List (String × List String)) (key id : String) :
    Except String (List (String × List String)) :=
  match dictGet idx key with
  | none => .ok idx
  | some l =>
      match pyListRemove l id with
      | .error m => .error m
      | .ok l' => .ok (if l' = [] then dictDel idx key else dictSet idx key l')

/-- Remove branch of the tag-index loop: sequential removes over the asset's
tags; a ValueError aborts before the tag-index file is written, so no
partial tag-index state becomes visible. -/
def removeTags (idx : List (String × List String)) (id : String) :
    List (String × String) → Except String (List (String × List String))
  | [] => .ok idx
  | t :: ts =>
      match indexRemove idx (tagStr t) id with
      | .error m => .error m
      | .ok idx' => removeTags idx' id ts

/-- Index files written by one `_update_index` call (it always rewrites all
three files, in this order). -/
inductive IdxFile where
  | typeIdx
  | providerIdx
  | tagIdx
deriving DecidableEq

/-- Full `_update_index(asset, remove=False)`: add the id under the asset's
type, provider and tag keys, writing the three index files. -/
def updateIndexAdd (s : FileBasedAssetRepository) (a : Asset) :
    FileBasedAssetRepository × List IdxFile :=
  ({ s with
      byType := indexAdd s.byType a.assetType a.assetId
      byProvider := indexAdd s.byProvider a.provider a.assetId
      byTags := addTags s.byTags a.assetId a.tags },
   [.typeIdx, .providerIdx, .tagIdx])

/-- Full `_update_index(asset, remove=True)`: the three index files are
processed and written in sequence, so a ValueError mid-sequence leaves the
already-written files in their new state. -/
def updateIndexRemove (s : FileBasedAssetRepository) (a : Asset) :
    FileBasedAssetRepository × List IdxFile × Option String :=
  match indexRemove s.byType a.assetType a.assetId with
  | .error m => (s, [], some m)
  | .ok t =>
      let s1 := { s with byType := t }
      match indexRemove s1.byProvider a.provider a.assetId with
      | .error m => (s1, [.typeIdx], some m)
      | .ok p =>
          let s2 := { s1 with byProvider := p }
          match removeTags s2.byTags a.assetId a.tags with
          | .error m => (s2, [.typeIdx, .providerIdx], some m)
          | .ok g => ({ s2 with byTags := g }, [.typeIdx, .providerIdx, .tagIdx], none)

/-- Body of the `try` in `save`: duplicate check on the entity file, then the
entity-file write, then the index update. -/
def saveTry (s : FileBasedAssetRepository) (a : Asset) :
    FileBasedAssetRepository × Except PyExc Asset :=
  if (dictGet s.files a.assetId).isSome then
    (s, .error (.repo (.duplicateAsset ("Asset " ++ a.assetId ++ " already exists"))))
  else
    let s1 := { s with files := dictSet s.files a.assetId a }
    ((updateIndexAdd s1 a).1, .ok a)

/-- FileBasedAssetRepository.save: the `except Exception` clause re-raises
every exception of the body — the DuplicateAssetError included — as a plain
RepositoryError interpolating the original message. -/
def save (s : FileBasedAssetRepository) (a : Asset) :
    FileBasedAssetRepository × Except RepoErr Asset :=
  match saveTry s a with
  | (s', .ok x) => (s', .ok x)
  | (s', .error e) =>
      (s', .error (.repositoryError ("Failed to save asset: " ++ e.message)))

/-- Loop of `save_batch`: duplicates (by dynamic class DuplicateAssetError)
are skipped with a warning, every other exception is recorded per item. -/
def saveBatchLoop (s : FileBasedAssetRepository) (saved : List Asset)
    (errors : List String) : List Asset →
    FileBasedAssetRepository × List Asset × List String
  | [] => (s, saved, errors)
  | a :: rest =>
      match save s a with
      | (s', .ok x) => saveBatchLoop s' (saved ++ [x]) errors rest
      | (s', .error e) =>
          if e.isDuplicateAsset then
            saveBatchLoop s' saved errors rest
          else
            saveBatchLoop s' saved (errors ++ [a.assetId ++ ": " ++ e.message]) rest

/-- FileBasedAssetRepository.save_batch: raises only when there were errors
and zero successes. -/
def save_batch (s : FileBasedAssetRepository) (assets : List Asset) :
    FileBasedAssetRepository × Except RepoErr (List Asset) :=
  match saveBatchLoop s [] [] assets with
  | (s', saved, errors) =>
      if ¬ errors.isEmpty ∧ saved.isEmpty then
        (s', .error (.repositoryError
          ("Batch save failed: " ++ String.intercalate "; " errors)))
      else (s', .ok saved)

/-- FileBasedAssetRepository.find_by_id: path existence check then read. -/
def find_by_id (s : FileBasedAssetRepository) (id : String) :
    Except RepoErr (Option Asset) :=
  .ok (dictGet s.files id)

/-- FileBasedAssetRepository.count: `len(find_all(None))`, i.e. the number
of stored asset files. -/
def count (s : FileBasedAssetRepository) : Nat := s.files.length

/-- FileBasedAssetRepository.find_by_tags: running intersection over the tag
index, starting from `None`; `if not matching_ids: return []` treats both
`None` (empty tag argument) and the empty intersection as empty.  The source
intersects Python sets; list intersection is used here, which preserves the
membership semantics the claims are about. -/
def find_by_tags (s : FileBasedAssetRepository) (tags : List (String × String)) :
    Except RepoErr (List Asset) :=
  let matchingIds : Option (List String) :=
    tags.foldl
      (fun acc t =>
        let ids := (dictGet s.byTags (tagStr t)).getD []
        match acc with
        | none => some ids
        | some cur => some (cur.filter (fun id => id ∈ ids)))
      none
  match matchingIds with
  | none => .ok []
  | some ids =>
      if ids.isEmpty then .ok []
      else .ok (ids.filterMap (fun id => dictGet s.files id))

/-- Body of the `try` in `delete`: read the asset, unlink its file, then run
the remove-direction index update (whose ValueError, if any, escapes with
the file already unlinked and a prefix of the index files rewritten). -/
def deleteTry (s : FileBasedAssetRepository) (id : String) :
    FileBasedAssetRepository × Except PyExc Bool :=
  match dictGet s.files id with
  | none => (s, .ok false)
  | some a =>
      let s1 := { s with files := dictDel s.files id }
      match updateIndexRemove s1 a with
      | (s2, _, some m) => (s2, .error (.valueError m))
      | (s2, _, none) => (s2, .ok true)

/-- FileBasedAssetRepository.delete with its `except Exception` wrapper. -/
def delete (s : FileBasedAssetRepository) (id : String) :
    FileBasedAssetRepository × Except RepoErr Bool :=
  match deleteTry s id with
  | (s', .ok b) => (s', .ok b)
  | (s', .error e) =>
      (s', .error (.repositoryError ("Failed to delete asset: " ++ e.message)))

/-- Body of the `try` in `update`: existence check, read of the old asset,
timestamp bump, entity-file write, then — only when type, provider or tags
changed — a remove of the old asset's index entries followed by an add of
the new ones (two `_update_index` calls, each rewriting all three index
files).  The second component records which index files were written. -/
def updateTry (s : FileBasedAssetRepository) (a : Asset) (now : Nat) :
    FileBasedAssetRepository × List IdxFile × Except PyExc Asset :=
  match dictGet s.files a.assetId with
  | none => (s, [], .error (.repo (.assetNotFound ("Asset " ++ a.assetId ++ " not found"))))
  | some old =>
      let a' := { a with updatedAt := now }
      let s1 := { s with files := dictSet s.files a.assetId a' }
      if old.assetType ≠ a.assetType ∨ old.provider ≠ a.provider ∨ old.tags ≠ a.tags then
        match updateIndexRemove s1 old with
        | (s2, log1, some m) => (s2, log1, .error (.valueError m))
        | (s2, log1, none) =>
            match updateIndexAdd s2 a' with
            | (s3, log2) => (s3, log1 ++ log2, .ok a')
      else (s1, [], .ok a')

/-- FileBasedAssetRepository.update with its `except Exception` wrapper,
returning the post-state, the list of index files written, and the result. -/
def update (s : FileBasedAssetRepository) (a : Asset) (now : Nat) :
    FileBasedAssetRepository × List IdxFile × Except RepoErr Asset :=
  match updateTry s a now with
  | (s', log, .ok x) => (s', log, .ok x)
  | (s', log, .error e) =>
      (s', log, .error (.repositoryError ("Failed to update asset: " ++ e.message)))

/-! ### Fault-injected save (for the atomicity claim)

`save` performs four sequential file writes (entity file, then the three
index files via `_update_index`); each individual write is atomic
(serialize to temp, rename), but nothing rolls back earlier writes when a
later one raises.  `saveWithFault s a k` executes the duplicate check, then
the first `k` writes, and then raises (wrapped by the `except Exception`
clause); `k ≥ 4` is the fault-free run. -/

inductive SaveWrite where
  | entity
  | typeIdxW
  | providerIdxW
  | tagIdxW
deriving DecidableEq

def applySaveWrite (a : Asset) (s : FileBasedAssetRepository) :
    SaveWrite → FileBasedAssetRepository
  | .entity => { s with files := dictSet s.files a.assetId a }
  | .typeIdxW => { s with byType := indexAdd s.byType a.assetType a.assetId }
  | .providerIdxW => { s with byProvider := indexAdd s.byProvider a.provider a.assetId }
  | .tagIdxW => { s with byTags := addTags s.byTags a.assetId a.tags }

def saveWrites : List SaveWrite := [.entity, .typeIdxW, .providerIdxW, .tagIdxW]

def saveWithFault (s : FileBasedAssetRepository) (a : Asset) (k : Nat) :
    FileBasedAssetRepository × Except RepoErr Asset :=
  if (dictGet s.files a.assetId).isSome then
    (s, .error (.repositoryError
      ("Failed to save asset: " ++ ("Asset " ++ a.assetId ++ " already exists"))))
  else if k < saveWrites.length then
    ((saveWrites.take k).foldl (applySaveWrite a) s,
     .error (.repositoryError "Failed to save asset: I/O error"))
  else (saveWrites.foldl (applySaveWrite a) s, .ok a)

/-- The fault-free run of `saveWithFault` is `save`. -/
theorem saveWithFault_eq_save (s : FileBasedAssetRepository) (a : Asset) :
    saveWithFault s a saveWrites.length = save s a := by
  unfold saveWithFault save saveTry
  by_cases h : (dictGet s.files a.assetId).isSome
  · simp [h, PyExc.message, RepoErr.message]
  · simp [h, saveWrites, applySaveWrite, updateIndexAdd]

end FileBasedAssetRepository

end CloudScope

namespace CloudScope

/-! ## Statistics values

The statistics methods return Python dicts; they are embedded as
key-to-value association lists so that theorems can speak about which
metrics a backend does and does not return.  Float arithmetic is modelled
with exact rationals; Python's `round(x, n)` is round-half-to-even. -/

inductive StatVal where
  | natV (n : Nat)
  | ratV (q : ℚ)
  | strV (s : String)
  | boolV (b : Bool)
  | listV (l : List String)
  | dictNatV (d : List (String × Nat))
  | dictRatV (d : List (String × ℚ))
  | dictV (d : List (String × StatVal))

/-- Round a rational to the nearest integer, ties to even (Python `round`). -/
def roundHalfEven (q : ℚ) : ℤ :=
  let f := q.floor
  let r := q - (f : ℚ)
  if r < 1/2 then f
  else if 1/2 < r then f + 1
  else if f % 2 = 0 then f else f + 1

/-- Python `round(q, d)` on exact rationals. -/
def pyRound (q : ℚ) (d : Nat) : ℚ :=
  (roundHalfEven (q * (10 : ℚ) ^ d) : ℚ) / (10 : ℚ) ^ d

/-! ## File-backed relationship store (file_repository.py, second class)

Same layout as the asset store with indices by source, target and type. -/

structure FileBasedRelationshipRepository where
  files : List (String × Relationship)
  bySource : List (String × List String)
  byTarget : List (String × List String)
  byType : List (String × List String)
deriving DecidableEq

namespace FileBasedRelationshipRepository

def empty : FileBasedRelationshipRepository := ⟨[], [], [], []⟩

/-- FileBasedRelationshipRepository.find_by_id. -/
def find_by_id (s : FileBasedRelationshipRepository) (rid : String) :
    Except RepoErr (Option Relationship) :=
  .ok (dictGet s.files rid)

/-- FileBasedRelationshipRepository.find_by_source: id list from the source
index, each loaded via find_by_id, dropping dangling ids. -/
def find_by_source (s : FileBasedRelationshipRepository) (srcId : String) :
    List Relationship :=
  ((dictGet s.bySource srcId).getD []).filterMap (fun rid => dictGet s.files rid)

/-- FileBasedRelationshipRepository._find_exact_relationship. -/
def findExactRelationship (s : FileBasedRelationshipRepository)
    (srcId tgtId ty : String) : Option Relationship :=
  (find_by_source s srcId).find?
    (fun r => r.targetId == tgtId && r.relationshipType == ty)

/-- Full `_update_index(relationship, remove=False)` of the relationship
store: source, target and type indices. -/
def updateIndexAdd (s : FileBasedRelationshipRepository) (r : Relationship) :
    FileBasedRelationshipRepository :=
  { s with
      bySource := FileBasedAssetRepository.indexAdd s.bySource r.sourceId r.relationshipId
      byTarget := FileBasedAssetRepository.indexAdd s.byTarget r.targetId r.relationshipId
      byType := FileBasedAssetRepository.indexAdd s.byType r.relationshipType r.relationshipId }

/-- Body of the `try` in the relationship save: duplicate id check, then the
duplicate (source, target, type) check, then the file write and indexing. -/
def saveTry (s : FileBasedRelationshipRepository) (r : Relationship) :
    FileBasedRelationshipRepository × Except PyExc Relationship :=
  if (dictGet s.files r.relationshipId).isSome then
    (s, .error (.repo (.duplicateRelationship
      ("Relationship " ++ r.relationshipId ++ " already exists"))))
  else
    match findExactRelationship s r.sourceId r.targetId r.relationshipType with
    | some ex =>
        (s, .error (.repo (.duplicateRelationship
          ("Relationship already exists: " ++ ex.relationshipId))))
    | none =>
        let s1 := { s with files := dictSet s.files r.relationshipId r }
        (updateIndexAdd s1 r, .ok r)

/-- FileBasedRelationshipRepository.save: as for assets, the
`except Exception` clause re-raises everything — DuplicateRelationshipError
included — as a plain RepositoryError. -/
def save (s : FileBasedRelationshipRepository) (r : Relationship) :
    FileBasedRelationshipRepository × Except RepoErr Relationship :=
  match saveTry s r with
  | (s', .ok x) => (s', .ok x)
  | (s', .error e) =>
      (s', .error (.repositoryError ("Failed to save relationship: " ++ e.message)))

/-- FileBasedRelationshipRepository.get_graph_statistics: nodes are the ids
with at least one incident relationship (union of source/target index
keys), edges are summed over the source index, degrees are out-degree plus
in-degree; there is no minimum-degree metric and no density metric. -/
def get_graph_statistics (s : FileBasedRelationshipRepository) :
    Except RepoErr (List (String × StatVal)) :=
  let nodes := (s.bySource.map Prod.fst ++ s.byTarget.map Prod.fst).dedup
  let totalEdges := s.bySource.foldl (fun n e => n + e.2.length) 0
  let degrees := nodes.map (fun nd =>
    ((dictGet s.bySource nd).getD []).length + ((dictGet s.byTarget nd).getD []).length)
  let avgDegree : ℚ := if nodes.isEmpty then 0 else (degrees.sum : ℚ) / (nodes.length : ℚ)
  .ok [("node_count", .natV nodes.length),
       ("edge_count", .natV totalEdges),
       ("relationship_types", .listV (s.byType.map Prod.fst)),
       ("average_degree", .ratV (pyRound avgDegree 2)),
       ("max_degree", .natV (degrees.foldl max 0)),
       ("by_type", .dictNatV (s.byType.map (fun e => (e.1, e.2.length))))]

end FileBasedRelationshipRepository

end CloudScope

namespace CloudScope

/-! ## Relational store (src/adapters/storage/sqlite_repository.py)

The database state carries the three tables.  `get_connection` opens one
connection per operation, applies the pragmas (the default set switches
foreign-key enforcement on), commits on success and rolls back on any
exception, so every modelled operation is transactional.  Driver-level I/O
failures are outside the model; constraint violations (primary key, unique,
foreign key) are modelled where the executed statements can hit them. -/

structure SQLiteDatabase where
  assets : List Asset
  assetTags : List (String × String × String)
  relationships : List Relationship
  fkEnabled : Bool
deriving DecidableEq

namespace SQLiteDatabase

/-- Fresh database after `_init_database` under the default pragmas
(`foreign_keys = ON`). -/
def empty : SQLiteDatabase := ⟨[], [], [], true⟩

/-- Row-existence check `SELECT 1 FROM assets WHERE asset_id = ?`. -/
def hasAsset (db : SQLiteDatabase) (id : String) : Bool :=
  db.assets.any (fun r => r.assetId == id)

end SQLiteDatabase

namespace SQLiteAssetRepository

/-- SQLiteAssetRepository.save: existence check, then the asset row insert
and one `asset_tags` row per tag.  The DuplicateAssetError raised after the
existence check is not a `sqlite3.Error`, so no handler catches it and it
propagates to the caller with its own class (the context manager rolls the
empty transaction back). -/
def save (db : SQLiteDatabase) (a : Asset) :
    SQLiteDatabase × Except RepoErr Asset :=
  if db.hasAsset a.assetId then
    (db, .error (.duplicateAsset ("Asset " ++ a.assetId ++ " already exists")))
  else
    ({ db with
        assets := db.assets ++ [a]
        assetTags := db.assetTags ++ a.tags.map (fun t => (a.assetId, t.1, t.2)) },
     .ok a)

/-- Loop of SQLiteAssetRepository.save_batch inside one transaction: an
already-present `asset_id` is skipped with a warning and the loop
continues; fresh assets are inserted and accumulated. -/
def saveBatchLoop (db : SQLiteDatabase) (saved : List Asset) :
    List Asset → SQLiteDatabase × List Asset
  | [] => (db, saved)
  | a :: rest =>
      if db.hasAsset a.assetId then saveBatchLoop db saved rest
      else
        saveBatchLoop
          { db with
              assets := db.assets ++ [a]
              assetTags := db.assetTags ++ a.tags.map (fun t => (a.assetId, t.1, t.2)) }
          (saved ++ [a]) rest

/-- SQLiteAssetRepository.save_batch (driver faults out of scope, so the
per-item `except` and the zero-success re-raise are never triggered). -/
def save_batch (db : SQLiteDatabase) (assets : List Asset) :
    SQLiteDatabase × Except RepoErr (List Asset) :=
  let (db', saved) := saveBatchLoop db [] assets
  (db', .ok saved)

/-- SQLiteAssetRepository.find_by_id. -/
def find_by_id (db : SQLiteDatabase) (id : String) :
    Except RepoErr (Option Asset) :=
  .ok (db.assets.find? (fun r => r.assetId == id))

/-- SQLiteAssetRepository.count with no filters. -/
def count (db : SQLiteDatabase) : Nat := db.assets.length

/-- SQLiteAssetRepository.find_by_tags: one `(tag_key = ? AND tag_value = ?)`
condition per tag is joined with OR into the WHERE clause; with zero tags the
query text reads `WHERE GROUP BY`, which sqlite rejects with
OperationalError(near "GROUP": syntax error), wrapped by `except
sqlite3.Error` into RepositoryError.  With at least one tag, the
GROUP BY/HAVING over the join selects the assets whose tag rows match every
requested (key, value) pair (tag keys are unique per asset by the
`asset_tags` primary key, and the requested tags come from a Python dict,
so counting distinct matched keys is the same as matching all pairs). -/
def find_by_tags (db : SQLiteDatabase) (tags : List (String × String)) :
    Except RepoErr (List Asset) :=
  if tags.isEmpty then
    .error (.repositoryError "Failed to find assets by tags: near GROUP: syntax error")
  else
    .ok (db.assets.filter (fun a =>
      tags.all (fun t =>
        db.assetTags.any (fun row =>
          row.1 == a.assetId && row.2.1 == t.1 && row.2.2 == t.2))))

/-- SQLiteAssetRepository.delete: `DELETE FROM assets WHERE asset_id = ?`;
with foreign keys on, the cascade removes the asset's `asset_tags` rows and
incident `relationships` rows; returns `rowcount > 0`. -/
def delete (db : SQLiteDatabase) (id : String) :
    SQLiteDatabase × Except RepoErr Bool :=
  let present := db.hasAsset id
  let db' :=
    { db with
        assets := db.assets.filter (fun r => !(r.assetId == id))
        assetTags :=
          if db.fkEnabled then db.assetTags.filter (fun row => !(row.1 == id))
          else db.assetTags
        relationships :=
          if db.fkEnabled then
            db.relationships.filter (fun r => !(r.sourceId == id || r.targetId == id))
          else db.relationships }
  (db', .ok present)

end SQLiteAssetRepository

namespace SQLiteRelationshipRepository

/-- SQLiteRelationshipRepository.save: primary-key existence check (the
DuplicateRelationshipError it raises propagates uncaught, as for assets),
then the INSERT.  The insert hits the foreign-key constraint when either
endpoint id has no `assets` row (IntegrityError without "UNIQUE constraint
failed" in its text, re-raised as RepositoryError), and the UNIQUE
constraint on (source_id, target_id, relationship_type) when a duplicate
triple exists (re-raised as DuplicateRelationshipError). -/
def save (db : SQLiteDatabase) (r : Relationship) :
    SQLiteDatabase × Except RepoErr Relationship :=
  if db.relationships.any (fun e => e.relationshipId == r.relationshipId) then
    (db, .error (.duplicateRelationship
      ("Relationship " ++ r.relationshipId ++ " already exists")))
  else if db.fkEnabled && ¬ (db.hasAsset r.sourceId && db.hasAsset r.targetId) then
    (db, .error (.repositoryError
      "Failed to save relationship: FOREIGN KEY constraint failed"))
  else if db.relationships.any (fun e =>
      e.sourceId == r.sourceId && e.targetId == r.targetId &&
      e.relationshipType == r.relationshipType) then
    (db, .error (.duplicateRelationship
      "Relationship already exists between these assets"))
  else
    ({ db with relationships := db.relationships ++ [r] }, .ok r)

/-- SQLiteRelationshipRepository.find_by_id. -/
def find_by_id (db : SQLiteDatabase) (rid : String) :
    Except RepoErr (Option Relationship) :=
  .ok (db.relationships.find? (fun r => r.relationshipId == rid))

/-- SQLiteRelationshipRepository.get_graph_statistics: nodes are the
distinct ids in the source/target columns, edges the relationship rows;
degree statistics carry average, max and min; confidence statistics are
aggregated over all rows; there is no density metric. -/
def get_graph_statistics (db : SQLiteDatabase) :
    Except RepoErr (List (String × StatVal)) :=
  let rels := db.relationships
  let total := rels.length
  let nodes := (rels.map (·.sourceId) ++ rels.map (·.targetId)).dedup
  let byTypeKeys := (rels.map (·.relationshipType)).dedup
  let byType := byTypeKeys.map (fun ty =>
    (ty, (rels.filter (fun r => r.relationshipType == ty)).length))
  let degrees := nodes.map (fun nd =>
    (rels.filter (fun r => r.sourceId == nd)).length +
    (rels.filter (fun r => r.targetId == nd)).length)
  let avgDegree : ℚ :=
    if nodes.isEmpty then 0 else (degrees.sum : ℚ) / (nodes.length : ℚ)
  let avgConf : ℚ :=
    if rels.isEmpty then 0 else (rels.map (·.confidence)).sum / (total : ℚ)
  let minConf : ℚ := ((rels.map (·.confidence)).min?).getD 0
  let maxConf : ℚ := ((rels.map (·.confidence)).max?).getD 0
  .ok [("node_count", .natV nodes.length),
       ("edge_count", .natV total),
       ("relationship_types", .listV byTypeKeys),
       ("by_type", .dictNatV byType),
       ("degree_statistics", .dictRatV
          [("average", pyRound avgDegree 2),
           ("max", (((degrees.max?).getD 0 : Nat) : ℚ)),
           ("min", (((degrees.min?).getD 0 : Nat) : ℚ))]),
       ("confidence_statistics", .dictRatV
          [("average", pyRound avgConf 2),
           ("min", minConf),
           ("max", maxConf)])]

end SQLiteRelationshipRepository

end CloudScope

namespace CloudScope

/-! ## Graph-backed store with fallback (memgraph_repository.py)

The graph state is the set of `Asset` nodes (keyed by `asset_id`, per the
uniqueness constraint) and the `RELATIONSHIP` edges.  Each repository holds
an availability flag set by the constructor and an optional internal
file-backed fallback store; `_use_fallback()` is `not available and
fallback is not None`.  Connectivity is collapsed into the constructor
argument `connectOk`: operations on an available connection do not raise
connectivity errors in the model. -/

structure GraphState where
  nodes : List (String × Asset)
  edges : List Relationship
deriving DecidableEq

def GraphState.empty : GraphState := ⟨[], []⟩

structure MemgraphAssetRepository where
  available : Bool
  fallback : Option FileBasedAssetRepository
  graph : GraphState
deriving DecidableEq

namespace MemgraphAssetRepository

/-- MemgraphAssetRepository.__init__: the fallback store is built first when
configured (a fresh file store); then the Memgraph connection is attempted.
A failed connection marks the repository unavailable, and is fatal only
when no fallback is configured. -/
def init (connectOk hasFallback : Bool) :
    Except RepoErr MemgraphAssetRepository :=
  let fb := if hasFallback then some FileBasedAssetRepository.empty else none
  if connectOk then .ok ⟨true, fb, .empty⟩
  else if hasFallback then .ok ⟨false, fb, .empty⟩
  else .error (.repositoryError "Memgraph unavailable and no fallback configured")

/-- MemgraphAssetRepository._use_fallback. -/
def useFallback (repo : MemgraphAssetRepository) : Bool :=
  !repo.available && repo.fallback.isSome

/-- MemgraphAssetRepository.save: routed to the fallback when degraded;
otherwise the node-existence check raises DuplicateAssetError, which the
`except Exception` clause turns into a fallback call when one is configured
and into a plain RepositoryError otherwise; a fresh id creates the node. -/
def save (repo : MemgraphAssetRepository) (a : Asset) :
    MemgraphAssetRepository × Except RepoErr Asset :=
  if repo.useFallback then
    match repo.fallback with
    | some fs =>
        let (fs', res) := fs.save a
        ({ repo with fallback := some fs' }, res)
    | none =>
        -- unreachable: _use_fallback() implies the fallback is configured
        (repo, .error (.repositoryError "Failed to save asset: no fallback"))
  else
    if (dictGet repo.graph.nodes a.assetId).isSome then
      match repo.fallback with
      | some fs =>
          let (fs', res) := fs.save a
          ({ repo with fallback := some fs' }, res)
      | none =>
          (repo, .error (.repositoryError
            ("Failed to save asset: " ++ ("Asset " ++ a.assetId ++ " already exists"))))
    else
      ({ repo with graph :=
          { repo.graph with nodes := dictSet repo.graph.nodes a.assetId a } },
       .ok a)

/-- MemgraphAssetRepository.find_by_id: fallback when degraded, otherwise a
node lookup by id. -/
def find_by_id (repo : MemgraphAssetRepository) (id : String) :
    Except RepoErr (Option Asset) :=
  if repo.useFallback then
    match repo.fallback with
    | some fs => fs.find_by_id id
    | none => .error (.repositoryError "Failed to find asset: no fallback")
  else
    .ok (dictGet repo.graph.nodes id)

end MemgraphAssetRepository

structure MemgraphRelationshipRepository where
  available : Bool
  fallback : Option FileBasedRelationshipRepository
  graph : GraphState
deriving DecidableEq

namespace MemgraphRelationshipRepository

/-- MemgraphRelationshipRepository.__init__ (same shape as the asset
variant). -/
def init (connectOk hasFallback : Bool) :
    Except RepoErr MemgraphRelationshipRepository :=
  let fb := if hasFallback then some FileBasedRelationshipRepository.empty else none
  if connectOk then .ok ⟨true, fb, .empty⟩
  else if hasFallback then .ok ⟨false, fb, .empty⟩
  else .error (.repositoryError "Memgraph unavailable and no fallback configured")

/-- MemgraphRelationshipRepository._use_fallback. -/
def useFallback (repo : MemgraphRelationshipRepository) : Bool :=
  !repo.available && repo.fallback.isSome

/-- Cypher pattern `(a1:Asset)-[r:RELATIONSHIP ...]->(a2:Asset)` with both
endpoint ids bound: it matches only when both endpoint nodes exist. -/
def edgeMatch (g : GraphState) (src tgt ty : String) : Bool :=
  (dictGet g.nodes src).isSome && (dictGet g.nodes tgt).isSome &&
    g.edges.any (fun e =>
      e.sourceId == src && e.targetId == tgt && e.relationshipType == ty)

/-- MemgraphRelationshipRepository.save (available path): the duplicate
check raises DuplicateRelationshipError when the typed edge already exists
between the endpoints (diverted to the fallback by `except Exception` when
one is configured); the CREATE is guarded by two MATCH clauses, so when
either endpoint node is missing it matches zero rows and creates nothing —
no exception is raised and the relationship is returned as if saved. -/
def save (repo : MemgraphRelationshipRepository) (r : Relationship) :
    MemgraphRelationshipRepository × Except RepoErr Relationship :=
  if repo.useFallback then
    match repo.fallback with
    | some fs =>
        let (fs', res) := fs.save r
        ({ repo with fallback := some fs' }, res)
    | none =>
        (repo, .error (.repositoryError "Failed to save relationship: no fallback"))
  else
    if edgeMatch repo.graph r.sourceId r.targetId r.relationshipType then
      match repo.fallback with
      | some fs =>
          let (fs', res) := fs.save r
          ({ repo with fallback := some fs' }, res)
      | none =>
          (repo, .error (.repositoryError
            ("Failed to save relationship: " ++ "Relationship already exists")))
    else
      if (dictGet repo.graph.nodes r.sourceId).isSome &&
         (dictGet repo.graph.nodes r.targetId).isSome then
        ({ repo with graph := { repo.graph with edges := repo.graph.edges ++ [r] } },
         .ok r)
      else
        (repo, .ok r)

/-- MemgraphRelationshipRepository.find_by_id: the MATCH requires both
endpoint Asset nodes, then selects by `relationship_id`. -/
def find_by_id (repo : MemgraphRelationshipRepository) (rid : String) :
    Except RepoErr (Option Relationship) :=
  if repo.useFallback then
    match repo.fallback with
    | some fs => fs.find_by_id rid
    | none => .error (.repositoryError "Failed to find relationship: no fallback")
  else
    .ok (repo.graph.edges.find? (fun e =>
      e.relationshipId == rid &&
      (dictGet repo.graph.nodes e.sourceId).isSome &&
      (dictGet repo.graph.nodes e.targetId).isSome))

/-- Incidences of edges at existing endpoint nodes: the row count of
`MATCH (a:Asset) OPTIONAL MATCH (a)-[r:RELATIONSHIP]-()` summed over all
nodes (each edge contributes once per existing endpoint). -/
def incidences (g : GraphState) : Nat :=
  g.nodes.foldl
    (fun n e =>
      n + (g.edges.filter (fun r => r.sourceId == e.1 || r.targetId == e.1)).length)
    0

/-- Degree of one node under the same OPTIONAL MATCH. -/
def degreeOf (g : GraphState) (id : String) : Nat :=
  (g.edges.filter (fun r => r.sourceId == id || r.targetId == id)).length

/-- MemgraphRelationshipRepository.get_graph_statistics (available path):
the node count is `COUNT(DISTINCT a)` over all Asset nodes — isolated nodes
included — and the edge count is the incidence count halved; the density is
`round(2·edges / (nodes·(nodes−1)), 4)` when there are at least two nodes
and 0 otherwise.  The connected-components metrics of `graph_properties`
come from a separate Cypher query that no claim touches; they are not
modelled. -/
def get_graph_statistics (repo : MemgraphRelationshipRepository) :
    Except RepoErr (List (String × StatVal)) :=
  if repo.useFallback then
    match repo.fallback with
    | some fs => fs.get_graph_statistics
    | none => .error (.repositoryError "Failed to get graph statistics: no fallback")
  else
    let g := repo.graph
    let nodeCount := g.nodes.length
    let edgeCount := incidences g / 2
    let visibleEdges := g.edges.filter (fun r =>
      (dictGet g.nodes r.sourceId).isSome && (dictGet g.nodes r.targetId).isSome)
    let byTypeKeys := (visibleEdges.map (·.relationshipType)).dedup
    let byType := byTypeKeys.map (fun ty =>
      (ty, (visibleEdges.filter (fun r => r.relationshipType == ty)).length))
    let degrees := g.nodes.map (fun e => degreeOf g e.1)
    let avgDegree : ℚ :=
      if g.nodes.isEmpty then 0 else (degrees.sum : ℚ) / (nodeCount : ℚ)
    let density : ℚ :=
      if 1 < nodeCount then
        pyRound ((2 * (edgeCount : ℚ)) / ((nodeCount : ℚ) * ((nodeCount : ℚ) - 1))) 4
      else 0
    .ok [("node_count", .natV nodeCount),
         ("edge_count", .natV edgeCount),
         ("relationship_types", .listV byTypeKeys),
         ("by_type", .dictNatV byType),
         ("degree_statistics", .dictRatV
            [("average", pyRound avgDegree 2),
             ("max", (((degrees.max?).getD 0 : Nat) : ℚ)),
             ("min", (((degrees.min?).getD 0 : Nat) : ℚ))]),
         ("graph_properties", .dictRatV [("density", density)])]

end MemgraphRelationshipRepository

/-! ## Repository statistics (get_statistics) -/

namespace FileBasedAssetRepository

/-- FileBasedAssetRepository.get_statistics: total assets are the distinct
ids across the type index's lists, the histograms are index cardinalities,
and the storage block is flat — the dict has no "storage" sub-dict, only
`storage_path`/`compressed`/`storage_size_bytes`/`storage_size_mb` keys.
`basePath` and `compress` are the constructor configuration and `fileSize`
gives each stored entity file's on-disk size (environment values the
directory walk reads, not derivable from the store state). -/
def get_statistics (s : FileBasedAssetRepository) (basePath : String)
    (compress : Bool) (fileSize : String → Nat) :
    Except RepoErr (List (String × StatVal)) :=
  let allAssetIds := (s.byType.foldl (fun acc e => acc ++ e.2) []).dedup
  let totalSize := (s.files.map (fun e => fileSize e.1)).sum
  .ok [("total_assets", .natV allAssetIds.length),
       ("by_type", .dictNatV (s.byType.map (fun e => (e.1, e.2.length)))),
       ("by_provider", .dictNatV (s.byProvider.map (fun e => (e.1, e.2.length)))),
       ("unique_tags", .natV s.byTags.length),
       ("storage_path", .strV basePath),
       ("compressed", .boolV compress),
       ("storage_size_bytes", .natV totalSize),
       ("storage_size_mb", .ratV (pyRound ((totalSize : ℚ) / (1024 * 1024)) 2))]

end FileBasedAssetRepository

namespace MemgraphAssetRepository

/-- MemgraphAssetRepository.get_statistics, degraded path (the path every
claim about degradation concerns): it calls the fallback store's
get_statistics and then executes `stats["storage"]["fallback_active"] =
True` before returning — the first subscript raises KeyError when the
returned dict has no "storage" key (the file backend's dict has none), and
would raise TypeError were the value not a dict.  This branch runs before
the `try`, so the KeyError propagates unwrapped.  The available path runs
Cypher aggregation queries against the live graph, which no claim touches;
their result is abstracted as `availStats`. -/
def get_statistics (repo : MemgraphAssetRepository) (basePath : String)
    (compress : Bool) (fileSize : String → Nat)
    (availStats : List (String × StatVal)) :
    Except PyExc (List (String × StatVal)) :=
  if repo.useFallback then
    match repo.fallback with
    | some fs =>
        match fs.get_statistics basePath compress fileSize with
        | .error e => .error (.repo e)
        | .ok stats =>
            match dictGet stats "storage" with
            | none => .error (.keyError "storage")
            | some (.dictV d) =>
                .ok (dictSet stats "storage"
                      (.dictV (dictSet d "fallback_active" (.boolV true))))
            | some _ =>
                .error (.typeError "TypeError: object does not support item assignment")
    | none =>
        -- unreachable: _use_fallback() implies the fallback is configured
        .error (.repo (.repositoryError "Failed to get statistics: no fallback"))
  else .ok availStats

end MemgraphAssetRepository

end CloudScope
namespace CloudScope

/-! ## Lemmas about the dict primitives -/

theorem dictGet_dictSet_self {α : Type} (d : List (String × α)) (k : String) (v : α) :
    dictGet (dictSet d k v) k = some v := by
  induction d with
  | nil => simp [dictSet, dictGet]
  | cons e rest ih =>
      obtain ⟨ek, ev⟩ := e
      by_cases h : ek = k
      · simp [dictSet, dictGet, h]
      · simp [dictSet, dictGet, h, ih]

theorem dictGet_dictSet_ne {α : Type} (d : List (String × α)) (k k' : String) (v : α)
    (h : k' ≠ k) : dictGet (dictSet d k v) k' = dictGet d k' := by
  induction d with
  | nil => simp [dictSet, dictGet, Ne.symm h]
  | cons e rest ih =>
      obtain ⟨ek, ev⟩ := e
      by_cases he : ek = k
      · subst he
        simp [dictSet, dictGet, Ne.symm h]
      · by_cases he' : ek = k'
        · subst he'
          simp [dictSet, dictGet, he]
        · simp [dictSet, dictGet, he, he', ih]

theorem dictGet_dictDel_ne {α : Type} (d : List (String × α)) (k k' : String)
    (h : k' ≠ k) : dictGet (dictDel d k) k' = dictGet d k' := by
  induction d with
  | nil => simp [dictDel, dictGet]
  | cons e rest ih =>
      obtain ⟨ek, ev⟩ := e
      by_cases he : ek = k
      · subst he
        simp [dictDel, dictGet, Ne.symm h]
      · by_cases he' : ek = k'
        · subst he'
          simp [dictDel, dictGet, he]
        · simp [dictDel, dictGet, he, he', ih]

theorem dictGet_none_of_not_mem_keys {α : Type} {d : List (String × α)} {k : String}
    (h : k ∉ d.map Prod.fst) : dictGet d k = none := by
  induction d with
  | nil => simp [dictGet]
  | cons e rest ih =>
      obtain ⟨ek, ev⟩ := e
      simp only [List.map_cons, List.mem_cons] at h
      push_neg at h
      simp [dictGet, Ne.symm h.1, ih h.2]

theorem dictGet_dictDel_self {α : Type} (d : List (String × α)) (k : String)
    (h : (d.map Prod.fst).Nodup) : dictGet (dictDel d k) k = none := by
  induction d with
  | nil => simp [dictDel, dictGet]
  | cons e rest ih =>
      obtain ⟨ek, ev⟩ := e
      simp only [List.map_cons, List.nodup_cons] at h
      by_cases he : ek = k
      · subst he
        simp only [dictDel, if_true]
        exact dictGet_none_of_not_mem_keys h.1
      · simp [dictDel, dictGet, he, ih h.2]

theorem dictGet_mem {α : Type} {d : List (String × α)} {k : String} {v : α}
    (h : dictGet d k = some v) : (k, v) ∈ d := by
  induction d with
  | nil => simp [dictGet] at h
  | cons e rest ih =>
      obtain ⟨ek, ev⟩ := e
      by_cases he : ek = k
      · subst he
        simp only [dictGet, if_true] at h
        cases h
        exact List.mem_cons_self _ _
      · simp only [dictGet, he, if_false] at h
        exact List.mem_cons_of_mem _ (ih h)

theorem mem_dictGet {α : Type} {d : List (String × α)} {k : String} {v : α}
    (hk : (d.map Prod.fst).Nodup) (h : (k, v) ∈ d) : dictGet d k = some v := by
  induction d with
  | nil => simp at h
  | cons e rest ih =>
      obtain ⟨ek, ev⟩ := e
      simp only [List.map_cons, List.nodup_cons] at hk
      rcases List.mem_cons.1 h with h1 | h1
      · cases h1
        simp [dictGet]
      · have hne : ek ≠ k := by
          intro he
          exact hk.1 (he ▸ List.mem_map.2 ⟨(k, v), h1, rfl⟩)
        simp [dictGet, hne, ih hk.2 h1]

theorem keys_dictSet {α : Type} (d : List (String × α)) (k k' : String) (v : α) :
    k' ∈ (dictSet d k v).map Prod.fst ↔ k' = k ∨ k' ∈ d.map Prod.fst := by
  induction d with
  | nil => simp [dictSet]
  | cons e rest ih =>
      obtain ⟨ek, ev⟩ := e
      by_cases he : ek = k
      · subst he
        simp [dictSet]
      · simp only [dictSet, he, if_false, List.map_cons, List.mem_cons, ih]
        tauto

theorem keys_dictSet_nodup {α : Type} (d : List (String × α)) (k : String) (v : α)
    (h : (d.map Prod.fst).Nodup) : ((dictSet d k v).map Prod.fst).Nodup := by
  induction d with
  | nil => simp [dictSet]
  | cons e rest ih =>
      obtain ⟨ek, ev⟩ := e
      simp only [List.map_cons, List.nodup_cons] at h
      by_cases he : ek = k
      · subst he
        simpa [dictSet] using h
      · simp only [dictSet, he, if_false, List.map_cons, List.nodup_cons]
        refine ⟨fun hmem => ?_, ih h.2⟩
        rcases (keys_dictSet rest k ek v).1 hmem with h1 | h1
        · exact he h1
        · exact h.1 h1

theorem keys_dictDel_sub {α : Type} (d : List (String × α)) (k k' : String)
    (h : k' ∈ (dictDel d k).map Prod.fst) : k' ∈ d.map Prod.fst := by
  induction d with
  | nil => simp [dictDel] at h
  | cons e rest ih =>
      obtain ⟨ek, ev⟩ := e
      by_cases he : ek = k
      · subst he
        simp only [dictDel, if_true] at h
        simp [List.mem_cons, h]
      · simp only [dictDel, he, if_false, List.map_cons, List.mem_cons] at h ⊢
        rcases h with h | h
        · exact .inl h
        · exact .inr (ih h)

theorem keys_dictDel_nodup {α : Type} (d : List (String × α)) (k : String)
    (h : (d.map Prod.fst).Nodup) : ((dictDel d k).map Prod.fst).Nodup := by
  induction d with
  | nil => simp [dictDel]
  | cons e rest ih =>
      obtain ⟨ek, ev⟩ := e
      simp only [List.map_cons, List.nodup_cons] at h
      by_cases he : ek = k
      · subst he
        simp only [dictDel, if_true]
        exact h.2
      · simp only [dictDel, he, if_false, List.map_cons, List.nodup_cons]
        exact ⟨fun hm => h.1 (keys_dictDel_sub rest k ek hm), ih h.2⟩

end CloudScope

namespace CloudScope

/-- Membership of an id in an index map under a given key. -/
def idxMem (idx : List (String × List String)) (k id : String) : Prop :=
  id ∈ (dictGet idx k).getD []

instance (idx : List (String × List String)) (k id : String) :
    Decidable (idxMem idx k id) := by
  unfold idxMem
  infer_instance

namespace FileBasedAssetRepository

theorem dictGet_indexAdd (idx : List (String × List String)) (key id k : String) :
    dictGet (indexAdd idx key id) k =
      if k = key then
        some (if id ∈ (dictGet idx key).getD [] then (dictGet idx key).getD []
              else (dictGet idx key).getD [] ++ [id])
      else dictGet idx k := by
  by_cases h : k = key
  · subst h
    simp [indexAdd, dictGet_dictSet_self]
  · simp [indexAdd, dictGet_dictSet_ne _ _ _ _ h, h]

theorem keys_indexAdd_nodup (idx : List (String × List String)) (key id : String)
    (h : (idx.map Prod.fst).Nodup) : ((indexAdd idx key id).map Prod.fst).Nodup := by
  unfold indexAdd
  exact keys_dictSet_nodup _ _ _ h

theorem idxMem_indexAdd (idx : List (String × List String)) (key id k id' : String) :
    idxMem (indexAdd idx key id) k id' ↔ (k = key ∧ id' = id) ∨ idxMem idx k id' := by
  unfold idxMem
  rw [dictGet_indexAdd]
  by_cases h : k = key
  · subst h
    rw [if_pos rfl]
    by_cases hmem : id ∈ (dictGet idx k).getD []
    · rw [if_pos hmem]
      simp only [Option.getD_some]
      constructor
      · intro hin
        exact .inr hin
      · rintro (⟨-, rfl⟩ | hin)
        · exact hmem
        · exact hin
    · rw [if_neg hmem]
      simp only [Option.getD_some, List.mem_append, List.mem_singleton]
      tauto
  · simp [h]

theorem dictGet_addTags_of_not_mem (id : String) (ts : List (String × String))
    (idx : List (String × List String)) (k : String) (hk : k ∉ ts.map tagStr) :
    dictGet (addTags idx id ts) k = dictGet idx k := by
  induction ts generalizing idx with
  | nil => simp [addTags]
  | cons t ts ih =>
      simp only [List.map_cons, List.mem_cons] at hk
      push_neg at hk
      rw [addTags, ih _ hk.2, dictGet_indexAdd, if_neg hk.1]

theorem keys_addTags_nodup (id : String) (ts : List (String × String))
    (idx : List (String × List String)) (h : (idx.map Prod.fst).Nodup) :
    ((addTags idx id ts).map Prod.fst).Nodup := by
  induction ts generalizing idx with
  | nil => exact h
  | cons t ts ih => exact ih _ (keys_indexAdd_nodup _ _ _ h)

theorem idxMem_addTags (id : String) (ts : List (String × String))
    (idx : List (String × List String)) (k id' : String) :
    idxMem (addTags idx id ts) k id' ↔
      (k ∈ ts.map tagStr ∧ id' = id) ∨ idxMem idx k id' := by
  induction ts generalizing idx with
  | nil => simp [addTags]
  | cons t ts ih =>
      rw [addTags, ih, idxMem_indexAdd]
      simp only [List.map_cons, List.mem_cons]
      tauto

theorem indexRemove_of_none (idx : List (String × List String)) (key id : String)
    (h : dictGet idx key = none) : indexRemove idx key id = .ok idx := by
  simp [indexRemove, h]

theorem indexRemove_spec (idx : List (String × List String)) (key id : String)
    (hk : (idx.map Prod.fst).Nodup) (hmem : idxMem idx key id) :
    ∃ idx', indexRemove idx key id = .ok idx' ∧
      ((idx'.map Prod.fst).Nodup) ∧
      (∀ k, dictGet idx' k =
        if k = key then
          (if ((dictGet idx key).getD []).erase id = [] then none
           else some (((dictGet idx key).getD []).erase id))
        else dictGet idx k) := by
  unfold idxMem at hmem
  cases hsome : dictGet idx key with
  | none => rw [hsome] at hmem; simp at hmem
  | some l =>
      rw [hsome] at hmem
      simp only [Option.getD_some] at hmem
      refine ⟨if l.erase id = [] then dictDel idx key else dictSet idx key (l.erase id),
        ?_, ?_, ?_⟩
      · simp [indexRemove, hsome, pyListRemove, hmem]
      · by_cases he : l.erase id = []
        · simpa [he] using keys_dictDel_nodup idx key hk
        · simpa [he] using keys_dictSet_nodup idx key (l.erase id) hk
      · intro k
        simp only [Option.getD_some]
        by_cases hkey : k = key
        · subst hkey
          by_cases he : l.erase id = []
          · simp [he, dictGet_dictDel_self idx k hk]
          · simp [he, dictGet_dictSet_self]
        · by_cases he : l.erase id = []
          · simp [he, hkey, dictGet_dictDel_ne _ _ _ hkey]
          · simp [he, hkey, dictGet_dictSet_ne _ _ _ _ hkey]

theorem removeTags_spec (id : String) (ts : List (String × String))
    (idx : List (String × List String))
    (hk : (idx.map Prod.fst).Nodup)
    (hts : (ts.map tagStr).Nodup)
    (hmem : ∀ t ∈ ts, idxMem idx (tagStr t) id) :
    ∃ idx', removeTags idx id ts = .ok idx' ∧
      ((idx'.map Prod.fst).Nodup) ∧
      (∀ k, dictGet idx' k =
        if k ∈ ts.map tagStr then
          (if ((dictGet idx k).getD []).erase id = [] then none
           else some (((dictGet idx k).getD []).erase id))
        else dictGet idx k) := by
  induction ts generalizing idx with
  | nil =>
      refine ⟨idx, rfl, hk, ?_⟩
      intro k
      simp
  | cons t ts ih =>
      simp only [List.map_cons, List.nodup_cons] at hts
      obtain ⟨idx1, hrun1, hk1, hchar1⟩ :=
        indexRemove_spec idx (tagStr t) id hk (hmem t (List.mem_cons_self _ _))
      have hmem1 : ∀ t' ∈ ts, idxMem idx1 (tagStr t') id := by
        intro t' ht'
        have hne : tagStr t' ≠ tagStr t := by
          intro hcontra
          exact hts.1 (hcontra ▸ List.mem_map.2 ⟨t', ht', rfl⟩)
        unfold idxMem
        rw [hchar1, if_neg hne]
        exact hmem t' (List.mem_cons_of_mem _ ht')
      obtain ⟨idx', hrun, hk', hchar⟩ := ih idx1 hk1 hts.2 hmem1
      refine ⟨idx', ?_, hk', ?_⟩
      · rw [removeTags, hrun1]
        exact hrun
      · intro k
        rw [hchar k, hchar1 k]
        simp only [List.map_cons, List.mem_cons]
        by_cases hkt : k = tagStr t
        · subst hkt
          rw [if_neg hts.1, if_pos rfl, if_pos (Or.inl rfl)]
        · by_cases hin : k ∈ ts.map tagStr
          · rw [if_pos hin, if_neg hkt, if_pos (Or.inr hin)]
          · rw [if_neg hin, if_neg hkt, if_neg (fun h => h.elim hkt hin)]

end FileBasedAssetRepository

end CloudScope

namespace CloudScope

namespace FileBasedAssetRepository

/-- Index consistency of a file-backed asset store, as maintained by the
repository operations: association-list keys are unique (Python dicts),
each stored file is keyed by its asset's id, tag keys of a stored asset are
pairwise distinct (Python dict keys), index id-lists are duplicate-free and
never empty (empty lists are deleted), every indexed id belongs to a stored
asset carrying the index key (soundness), and every stored asset is indexed
under its type, provider and each of its tags (completeness). -/
structure WellIndexed (s : FileBasedAssetRepository) : Prop where
  filesKeys : (s.files.map Prod.fst).Nodup
  typeKeys : (s.byType.map Prod.fst).Nodup
  providerKeys : (s.byProvider.map Prod.fst).Nodup
  tagKeys : (s.byTags.map Prod.fst).Nodup
  fileId : ∀ e ∈ s.files, (e.2 : Asset).assetId = e.1
  fileTagsNodup : ∀ e ∈ s.files, ((e.2 : Asset).tags.map tagStr).Nodup
  typeNodup : ∀ e ∈ s.byType, (e.2 : List String).Nodup
  providerNodup : ∀ e ∈ s.byProvider, (e.2 : List String).Nodup
  tagNodup : ∀ e ∈ s.byTags, (e.2 : List String).Nodup
  typeNonempty : ∀ e ∈ s.byType, (e.2 : List String) ≠ []
  providerNonempty : ∀ e ∈ s.byProvider, (e.2 : List String) ≠ []
  tagNonempty : ∀ e ∈ s.byTags, (e.2 : List String) ≠ []
  typeSound : ∀ e ∈ s.byType, ∀ id ∈ (e.2 : List String),
    ∃ f ∈ s.files, f.1 = id ∧ (f.2 : Asset).assetType = e.1
  providerSound : ∀ e ∈ s.byProvider, ∀ id ∈ (e.2 : List String),
    ∃ f ∈ s.files, f.1 = id ∧ (f.2 : Asset).provider = e.1
  tagSound : ∀ e ∈ s.byTags, ∀ id ∈ (e.2 : List String),
    ∃ f ∈ s.files, f.1 = id ∧ e.1 ∈ (f.2 : Asset).tags.map tagStr
  typeComplete : ∀ f ∈ s.files, idxMem s.byType (f.2 : Asset).assetType f.1
  providerComplete : ∀ f ∈ s.files, idxMem s.byProvider (f.2 : Asset).provider f.1
  tagComplete : ∀ f ∈ s.files, ∀ t ∈ (f.2 : Asset).tags, idxMem s.byTags (tagStr t) f.1

/-- Any list stored under a key of a nodup-listed index is duplicate-free
(getD form). -/
theorem getD_nodup {idx : List (String × List String)}
    (h : ∀ e ∈ idx, (e.2 : List String).Nodup) (k : String) :
    ((dictGet idx k).getD []).Nodup := by
  cases hg : dictGet idx k with
  | none => simp
  | some l => simpa using h _ (dictGet_mem hg)

/-- Lists stored in a nonempty-listed index are nonempty (dictGet form). -/
theorem get_nonempty {idx : List (String × List String)}
    (h : ∀ e ∈ idx, (e.2 : List String) ≠ []) {k : String} {l : List String}
    (hg : dictGet idx k = some l) : l ≠ [] :=
  h _ (dictGet_mem hg)

/-- Generic soundness transfer: an id indexed under key `k` belongs to the
stored asset `a`, which therefore carries key `k` in the sense of `P`. -/
theorem sound_get {files : List (String × Asset)}
    {idx : List (String × List String)} (P : Asset → String → Prop)
    (hfk : (files.map Prod.fst).Nodup)
    (hsound : ∀ e ∈ idx, ∀ id ∈ (e.2 : List String),
      ∃ f ∈ files, f.1 = id ∧ P f.2 e.1)
    {k id : String} (hm : idxMem idx k id) {a : Asset}
    (ha : dictGet files id = some a) : P a k := by
  unfold idxMem at hm
  cases hg : dictGet idx k with
  | none => rw [hg] at hm; simp at hm
  | some l =>
      rw [hg] at hm
      simp only [Option.getD_some] at hm
      obtain ⟨f, hf, hfid, hP⟩ := hsound _ (dictGet_mem hg) id hm
      have : dictGet files id = some f.2 := by
        subst hfid
        exact mem_dictGet hfk (by simpa using hf)
      rw [ha] at this
      cases this
      exact hP

/-- Evaluation of `_update_index(remove=True)` when all three per-index
removals succeed. -/
theorem updateIndexRemove_run (s : FileBasedAssetRepository) (a : Asset)
    (t p g : List (String × List String))
    (ht : indexRemove s.byType a.assetType a.assetId = .ok t)
    (hp : indexRemove s.byProvider a.provider a.assetId = .ok p)
    (hg : removeTags s.byTags a.assetId a.tags = .ok g) :
    updateIndexRemove s a =
      ({ s with byType := t, byProvider := p, byTags := g },
       [.typeIdx, .providerIdx, .tagIdx], none) := by
  unfold updateIndexRemove
  rw [ht]
  simp only []
  rw [show ({ s with byType := t } : FileBasedAssetRepository).byProvider = s.byProvider
        from rfl, hp]
  simp only []
  rw [show ({ s with byType := t, byProvider := p } :
        FileBasedAssetRepository).byTags = s.byTags from rfl, hg]

/-- Evaluation of `delete` on a stored asset when the index removals all
succeed. -/
theorem delete_run (s : FileBasedAssetRepository) (id : String) (a : Asset)
    (t p g : List (String × List String))
    (ha : dictGet s.files id = some a)
    (ht : indexRemove s.byType a.assetType a.assetId = .ok t)
    (hp : indexRemove s.byProvider a.provider a.assetId = .ok p)
    (hg : removeTags s.byTags a.assetId a.tags = .ok g) :
    s.delete id = (⟨dictDel s.files id, t, p, g⟩, .ok true) := by
  unfold delete deleteTry
  rw [ha]
  simp only []
  rw [updateIndexRemove_run ⟨dictDel s.files id, s.byType, s.byProvider, s.byTags⟩
        a t p g ht hp hg]

/-- Full specification of `delete` on a well-indexed store: it reports
`True`, the entity file is gone, the deleted id is under no key of any of
the three indices, and no index key holds an empty list. -/
theorem delete_spec (s : FileBasedAssetRepository) (id : String) (a : Asset)
    (hw : WellIndexed s) (ha : dictGet s.files id = some a) :
    (s.delete id).2 = .ok true ∧
    dictGet (s.delete id).1.files id = none ∧
    (∀ k, ¬ idxMem (s.delete id).1.byType k id) ∧
    (∀ k, ¬ idxMem (s.delete id).1.byProvider k id) ∧
    (∀ k, ¬ idxMem (s.delete id).1.byTags k id) ∧
    (∀ k l, dictGet (s.delete id).1.byType k = some l → l ≠ []) ∧
    (∀ k l, dictGet (s.delete id).1.byProvider k = some l → l ≠ []) ∧
    (∀ k l, dictGet (s.delete id).1.byTags k = some l → l ≠ []) := by
  have hmemF : (id, a) ∈ s.files := dictGet_mem ha
  have hid : a.assetId = id := hw.fileId _ hmemF
  have hmemT : idxMem s.byType a.assetType a.assetId := by
    rw [hid]; exact hw.typeComplete _ hmemF
  have hmemP : idxMem s.byProvider a.provider a.assetId := by
    rw [hid]; exact hw.providerComplete _ hmemF
  have hmemG : ∀ t ∈ a.tags, idxMem s.byTags (tagStr t) a.assetId := by
    intro t htag
    rw [hid]; exact hw.tagComplete _ hmemF t htag
  obtain ⟨t, ht, hkT, hcharT⟩ := indexRemove_spec s.byType a.assetType a.assetId
    hw.typeKeys hmemT
  obtain ⟨p, hp, hkP, hcharP⟩ := indexRemove_spec s.byProvider a.provider a.assetId
    hw.providerKeys hmemP
  obtain ⟨g, hg, hkG, hcharG⟩ := removeTags_spec a.assetId a.tags s.byTags
    hw.tagKeys (hw.fileTagsNodup _ hmemF) hmemG
  rw [delete_run s id a t p g ha ht hp hg]
  refine ⟨rfl, ?_, ?_, ?_, ?_, ?_, ?_, ?_⟩
  · exact dictGet_dictDel_self s.files id hw.filesKeys
  · intro k hk
    unfold idxMem at hk
    rw [hcharT k] at hk
    by_cases hkey : k = a.assetType
    · rw [if_pos hkey] at hk
      by_cases he : ((dictGet s.byType a.assetType).getD []).erase a.assetId = []
      · rw [if_pos he] at hk
        rw [hid] at he
        simp [he] at hk
      · rw [if_neg he] at hk
        simp only [Option.getD_some] at hk
        rw [hid] at hk
        exact ((getD_nodup hw.typeNodup a.assetType).not_mem_erase) (hid ▸ hk)
    · rw [if_neg hkey] at hk
      exact hkey (sound_get (fun x y => x.assetType = y) hw.filesKeys hw.typeSound hk ha).symm
  · intro k hk
    unfold idxMem at hk
    rw [hcharP k] at hk
    by_cases hkey : k = a.provider
    · rw [if_pos hkey] at hk
      by_cases he : ((dictGet s.byProvider a.provider).getD []).erase a.assetId = []
      · rw [if_pos he] at hk
        simp [he] at hk
      · rw [if_neg he] at hk
        simp only [Option.getD_some] at hk
        exact ((getD_nodup hw.providerNodup a.provider).not_mem_erase) (hid ▸ hk)
    · rw [if_neg hkey] at hk
      exact hkey (sound_get (fun x y => x.provider = y) hw.filesKeys hw.providerSound hk ha).symm
  · intro k hk
    unfold idxMem at hk
    rw [hcharG k] at hk
    by_cases hkey : k ∈ a.tags.map tagStr
    · rw [if_pos hkey] at hk
      by_cases he : ((dictGet s.byTags k).getD []).erase a.assetId = []
      · rw [if_pos he] at hk
        simp at hk
      · rw [if_neg he] at hk
        simp only [Option.getD_some] at hk
        exact ((getD_nodup hw.tagNodup k).not_mem_erase) (hid ▸ hk)
    · rw [if_neg hkey] at hk
      exact hkey (sound_get (fun x y => y ∈ x.tags.map tagStr) hw.filesKeys hw.tagSound hk ha)
  · intro k l hl
    rw [hcharT k] at hl
    by_cases hkey : k = a.assetType
    · rw [if_pos hkey] at hl
      by_cases he : ((dictGet s.byType a.assetType).getD []).erase a.assetId = []
      · rw [if_pos he] at hl; cases hl
      · rw [if_neg he] at hl
        cases hl
        exact he
    · rw [if_neg hkey] at hl
      exact get_nonempty hw.typeNonempty hl
  · intro k l hl
    rw [hcharP k] at hl
    by_cases hkey : k = a.provider
    · rw [if_pos hkey] at hl
      by_cases he : ((dictGet s.byProvider a.provider).getD []).erase a.assetId = []
      · rw [if_pos he] at hl; cases hl
      · rw [if_neg he] at hl
        cases hl
        exact he
    · rw [if_neg hkey] at hl
      exact get_nonempty hw.providerNonempty hl
  · intro k l hl
    rw [hcharG k] at hl
    by_cases hkey : k ∈ a.tags.map tagStr
    · rw [if_pos hkey] at hl
      by_cases he : ((dictGet s.byTags k).getD []).erase a.assetId = []
      · rw [if_pos he] at hl; cases hl
      · rw [if_neg he] at hl
        cases hl
        exact he
    · rw [if_neg hkey] at hl
      exact get_nonempty hw.tagNonempty hl

end FileBasedAssetRepository

end CloudScope

namespace CloudScope

namespace FileBasedAssetRepository

/-- Removing an id from the key it is indexed under and then re-adding it
under the same key preserves index membership everywhere (the JSON content
may still change: the id moves to the end of the list and the two index
files are rewritten). -/
theorem idxMem_remove_add (idx : List (String × List String)) (key id : String)
    (hkeys : (idx.map Prod.fst).Nodup)
    (hnd : ∀ e ∈ idx, (e.2 : List String).Nodup)
    (hmem : idxMem idx key id) {t : List (String × List String)}
    (hrun : indexRemove idx key id = .ok t) (k id' : String) :
    idxMem (indexAdd t key id) k id' ↔ idxMem idx k id' := by
  obtain ⟨t', hrun', hk', hchar⟩ := indexRemove_spec idx key id hkeys hmem
  rw [hrun] at hrun'
  cases hrun'
  rw [idxMem_indexAdd]
  have hl0 : id ∈ (dictGet idx key).getD [] := hmem
  have hnodup : ((dictGet idx key).getD []).Nodup := getD_nodup hnd key
  by_cases hkey : k = key
  · subst hkey
    simp only [eq_self_iff_true, true_and]
    unfold idxMem
    rw [hchar k, if_pos rfl]
    by_cases he : ((dictGet idx k).getD []).erase id = []
    · rw [if_pos he]
      simp only [Option.getD_none, List.not_mem_nil, or_false]
      constructor
      · rintro rfl
        exact hl0
      · intro hin
        by_contra hne
        have : id' ∈ ((dictGet idx k).getD []).erase id :=
          (List.mem_erase_of_ne hne).2 hin
        rw [he] at this
        simp at this
    · rw [if_neg he]
      simp only [Option.getD_some]
      constructor
      · rintro (rfl | hin)
        · exact hl0
        · exact List.erase_subset _ _ hin
      · intro hin
        by_cases hne : id' = id
        · exact .inl hne
        · exact .inr ((List.mem_erase_of_ne hne).2 hin)
  · simp only [hkey, false_and, false_or]
    unfold idxMem
    rw [hchar k, if_neg hkey]

/-- Evaluation of `update` when the index diff-check fires and the three
index removals succeed: the entity file is rewritten and all six index-file
writes happen (remove pass then add pass). -/
theorem update_run_changed (s : FileBasedAssetRepository) (a old : Asset)
    (now : Nat) (t p g : List (String × List String))
    (ha : dictGet s.files a.assetId = some old)
    (hch : old.assetType ≠ a.assetType ∨ old.provider ≠ a.provider ∨ old.tags ≠ a.tags)
    (ht : indexRemove s.byType old.assetType old.assetId = .ok t)
    (hp : indexRemove s.byProvider old.provider old.assetId = .ok p)
    (hg : removeTags s.byTags old.assetId old.tags = .ok g) :
    s.update a now =
      (⟨dictSet s.files a.assetId { a with updatedAt := now },
        indexAdd t a.assetType a.assetId,
        indexAdd p a.provider a.assetId,
        addTags g a.assetId a.tags⟩,
       [.typeIdx, .providerIdx, .tagIdx, .typeIdx, .providerIdx, .tagIdx],
       .ok { a with updatedAt := now }) := by
  unfold update updateTry
  rw [ha]
  simp only []
  rw [if_pos hch]
  rw [updateIndexRemove_run
        ⟨dictSet s.files a.assetId { a with updatedAt := now },
         s.byType, s.byProvider, s.byTags⟩ old t p g ht hp hg]
  rfl

/-- Evaluation of `update` when type, provider and tags are all unchanged:
no `_update_index` call happens, so no index file is written and the three
index maps are untouched. -/
theorem update_run_unchanged (s : FileBasedAssetRepository) (a old : Asset)
    (now : Nat) (ha : dictGet s.files a.assetId = some old)
    (hty : old.assetType = a.assetType) (hpr : old.provider = a.provider)
    (htg : old.tags = a.tags) :
    s.update a now =
      (⟨dictSet s.files a.assetId { a with updatedAt := now },
        s.byType, s.byProvider, s.byTags⟩,
       [], .ok { a with updatedAt := now }) := by
  unfold update updateTry
  rw [ha]
  simp only []
  rw [if_neg (by push_neg; exact ⟨hty, hpr, htg⟩)]

/-- A tags-only update on a well-indexed store: the diff-check fires, so the
by_type and by_provider index files are rewritten (twice each), yet the set
of ids under every key of the type and provider indices is unchanged. -/
theorem update_tags_only_spec (s : FileBasedAssetRepository) (a old : Asset)
    (now : Nat) (hw : WellIndexed s)
    (ha : dictGet s.files a.assetId = some old)
    (hty : old.assetType = a.assetType) (hpr : old.provider = a.provider)
    (htg : old.tags ≠ a.tags) :
    (s.update a now).2.1 =
      [.typeIdx, .providerIdx, .tagIdx, .typeIdx, .providerIdx, .tagIdx] ∧
    (∀ k id', idxMem (s.update a now).1.byType k id' ↔ idxMem s.byType k id') ∧
    (∀ k id', idxMem (s.update a now).1.byProvider k id' ↔ idxMem s.byProvider k id') := by
  have hmemF : (a.assetId, old) ∈ s.files := dictGet_mem ha
  have hid : old.assetId = a.assetId := hw.fileId _ hmemF
  have hmemT : idxMem s.byType old.assetType old.assetId := by
    rw [hid]; exact hw.typeComplete _ hmemF
  have hmemP : idxMem s.byProvider old.provider old.assetId := by
    rw [hid]; exact hw.providerComplete _ hmemF
  have hmemG : ∀ tg ∈ old.tags, idxMem s.byTags (tagStr tg) old.assetId := by
    intro tg htag
    rw [hid]; exact hw.tagComplete _ hmemF tg htag
  obtain ⟨t, ht, hkT, hcharT⟩ := indexRemove_spec s.byType old.assetType old.assetId
    hw.typeKeys hmemT
  obtain ⟨p, hp, hkP, hcharP⟩ := indexRemove_spec s.byProvider old.provider old.assetId
    hw.providerKeys hmemP
  obtain ⟨g, hg, hkG, hcharG⟩ := removeTags_spec old.assetId old.tags s.byTags
    hw.tagKeys (hw.fileTagsNodup _ hmemF) hmemG
  rw [update_run_changed s a old now t p g ha (Or.inr (Or.inr htg)) ht hp hg]
  refine ⟨rfl, ?_, ?_⟩
  · intro k id'
    have := idxMem_remove_add s.byType old.assetType old.assetId
      hw.typeKeys hw.typeNodup hmemT ht k id'
    rw [← hty, ← hid]
    exact this
  · intro k id'
    have := idxMem_remove_add s.byProvider old.provider old.assetId
      hw.providerKeys hw.providerNodup hmemP hp k id'
    rw [← hpr, ← hid]
    exact this

end FileBasedAssetRepository

end CloudScope

namespace CloudScope

/-! ## Concrete fixtures used by witnesses and counterexamples -/

def assetA : Asset := ⟨"aa", "compute", "aws", "asset-a", [("env", "prod")], 0, 0⟩

def assetB : Asset := ⟨"bb", "storage", "azure", "asset-b", [("env", "dev")], 0, 0⟩

/-- Same id, type and provider as `assetA`, different tag value. -/
def assetADev : Asset := ⟨"aa", "compute", "aws", "asset-a", [("env", "dev")], 0, 0⟩

def relAB : Relationship := ⟨"rl1", "aa", "bb", "depends_on", 1, 0, 0⟩

/-- Same (source, target, type) triple as `relAB`, different id. -/
def relAB2 : Relationship := ⟨"rl2", "aa", "bb", "depends_on", 1, 0, 0⟩

def storeA : FileBasedAssetRepository := (FileBasedAssetRepository.empty.save assetA).1

def relStoreA : FileBasedRelationshipRepository :=
  (FileBasedRelationshipRepository.empty.save relAB).1

def dbA : SQLiteDatabase := (SQLiteAssetRepository.save SQLiteDatabase.empty assetA).1

def dbAB : SQLiteDatabase := (SQLiteAssetRepository.save dbA assetB).1

def dbABR : SQLiteDatabase := (SQLiteRelationshipRepository.save dbAB relAB).1

/-- A graph holding one isolated Asset node and no edges. -/
def graphIso : GraphState := ⟨[("aa", assetA)], []⟩

def repoIso : MemgraphRelationshipRepository := ⟨true, none, graphIso⟩

/-! ## Claim theorems -/

/-- C10: for every repository state, the file backend's find_by_tags with an
empty tag map returns the empty list (the running intersection is never
initialised, so `matching_ids` stays None and the falsy guard returns []),
while the SQLite backend raises RepositoryError on the same input because
the zero-condition query is malformed SQL. -/
theorem find_by_tags_empty_divergence
    (s : FileBasedAssetRepository) (db : SQLiteDatabase) :
    s.find_by_tags [] = .ok [] ∧
    SQLiteAssetRepository.find_by_tags db [] =
      .error (.repositoryError "Failed to find assets by tags: near GROUP: syntax error") :=
  ⟨rfl, rfl⟩

/-- A degraded graph-backed asset repository over the empty fallback
store. -/
def repoDegraded : MemgraphAssetRepository :=
  ⟨false, some FileBasedAssetRepository.empty, .empty⟩

/-- C4 counterexample: on the degraded repository, get_statistics does not
return the internal file store's result for the same call — the file
store's own get_statistics returns its flat statistics dict (whose keys
include no "storage"), while the degraded repository's get_statistics
raises KeyError from `stats["storage"]["fallback_active"] = True`. -/
theorem degraded_get_statistics_keyerror :
    repoDegraded.get_statistics "./fallback/assets" true (fun _ => 0) [] =
      .error (.keyError "storage") ∧
    ((FileBasedAssetRepository.empty.get_statistics "./fallback/assets" true
        (fun _ => 0)).toOption.getD []).map Prod.fst =
      ["total_assets", "by_type", "by_provider", "unique_tags", "storage_path",
       "compressed", "storage_size_bytes", "storage_size_mb"] :=
  ⟨rfl, rfl⟩

/-- C4 (amended): constructing the graph backend with an unreachable
endpoint but a configured file fallback succeeds in degraded mode, and on
the degraded repository save and find_by_id return exactly what the
internal file-backed store returns for the same call (with save also
threading the fallback store's new state); get_statistics, however, is not
a bare delegation: its degraded branch mutates
`stats["storage"]["fallback_active"]` on the fallback's statistics dict,
which has no "storage" key, so for every fallback state it raises KeyError
instead of returning the file store's result. -/
theorem degraded_memgraph_delegates_to_file
    (fs : FileBasedAssetRepository) (g : GraphState) (a : Asset) (id : String)
    (basePath : String) (compress : Bool) (fileSize : String → Nat)
    (availStats : List (String × StatVal)) :
    MemgraphAssetRepository.init false true =
      .ok ⟨false, some FileBasedAssetRepository.empty, .empty⟩ ∧
    (⟨false, some fs, g⟩ : MemgraphAssetRepository).save a =
      (⟨false, some (fs.save a).1, g⟩, (fs.save a).2) ∧
    (⟨false, some fs, g⟩ : MemgraphAssetRepository).find_by_id id = fs.find_by_id id ∧
    (⟨false, some fs, g⟩ : MemgraphAssetRepository).get_statistics basePath compress
        fileSize availStats = .error (.keyError "storage") := by
  refine ⟨rfl, ?_, rfl, rfl⟩
  show (let r := fs.save a; ((⟨false, some r.1, g⟩ : MemgraphAssetRepository), r.2)) = _
  rfl

/-- C9: when the graph backend is available and either endpoint Asset node
is missing, MemgraphRelationshipRepository.save raises nothing and returns
the relationship as saved, yet the MATCH-guarded CREATE matched no rows, so
the graph is unchanged and a subsequent find_by_id for the relationship id
returns None. -/
theorem memgraph_save_silently_drops_edge
    (g : GraphState) (fb : Option FileBasedRelationshipRepository) (r : Relationship)
    (hmiss : (dictGet g.nodes r.sourceId).isSome = false ∨
             (dictGet g.nodes r.targetId).isSome = false)
    (hrid : ∀ e ∈ g.edges, e.relationshipId ≠ r.relationshipId) :
    (⟨true, fb, g⟩ : MemgraphRelationshipRepository).save r = (⟨true, fb, g⟩, .ok r) ∧
    (⟨true, fb, g⟩ : MemgraphRelationshipRepository).find_by_id r.relationshipId =
      .ok none := by
  have hguard : ((dictGet g.nodes r.sourceId).isSome &&
      (dictGet g.nodes r.targetId).isSome) = false := by
    rcases hmiss with h | h <;> simp [h]
  constructor
  · unfold MemgraphRelationshipRepository.save
    have huf : (⟨true, fb, g⟩ : MemgraphRelationshipRepository).useFallback = false := by
      simp [MemgraphRelationshipRepository.useFallback]
    rw [huf]
    simp only [Bool.false_eq_true, if_false]
    have hmatch : MemgraphRelationshipRepository.edgeMatch g r.sourceId r.targetId
        r.relationshipType = false := by
      unfold MemgraphRelationshipRepository.edgeMatch
      rcases hmiss with h | h <;> simp [h]
    rw [hmatch]
    simp only [Bool.false_eq_true, if_false]
    rw [hguard]
    simp
  · unfold MemgraphRelationshipRepository.find_by_id
    have huf : (⟨true, fb, g⟩ : MemgraphRelationshipRepository).useFallback = false := by
      simp [MemgraphRelationshipRepository.useFallback]
    rw [huf]
    simp only [Bool.false_eq_true, if_false]
    have : ∀ e ∈ g.edges, ¬ (e.relationshipId == r.relationshipId &&
        (dictGet g.nodes e.sourceId).isSome &&
        (dictGet g.nodes e.targetId).isSome) = true := by
      intro e he
      simp only [Bool.and_eq_true, beq_iff_eq]
      rintro ⟨⟨h1, -⟩, -⟩
      exact hrid e he h1
    simp only [List.find?_eq_none.2 this]

/-- C9 witness: the graph holding only node "aa"; saving the relationship
"rl1" from "aa" to the absent "bb" succeeds without creating an edge. -/
theorem memgraph_save_silently_drops_edge_witness :
    ((dictGet graphIso.nodes relAB.sourceId).isSome = false ∨
     (dictGet graphIso.nodes relAB.targetId).isSome = false) ∧
    ((⟨true, none, graphIso⟩ : MemgraphRelationshipRepository).save relAB =
      (⟨true, none, graphIso⟩, .ok relAB) ∧
     (⟨true, none, graphIso⟩ : MemgraphRelationshipRepository).find_by_id
       relAB.relationshipId = .ok none) :=
  ⟨Or.inr (by decide),
   memgraph_save_silently_drops_edge graphIso none relAB (Or.inr (by decide))
     (by decide)⟩

end CloudScope

namespace CloudScope

/-- C5: a relationship whose target id references no stored asset is
rejected by the relational backend (the INSERT hits the foreign-key
constraint, surfacing as RepositoryError, and the transaction rolls back
leaving the database unchanged), while the file backend accepts and
persists the same relationship. -/
theorem relationship_fk_divergence (db : SQLiteDatabase)
    (fsR : FileBasedRelationshipRepository) (r : Relationship)
    (hfk : db.fkEnabled = true)
    (htgt : db.hasAsset r.targetId = false)
    (hrid : (dictGet fsR.files r.relationshipId).isSome = false)
    (hex : fsR.findExactRelationship r.sourceId r.targetId r.relationshipType = none)
    (hrid2 : db.relationships.any
      (fun e => e.relationshipId == r.relationshipId) = false) :
    SQLiteRelationshipRepository.save db r =
      (db, .error (.repositoryError
        "Failed to save relationship: FOREIGN KEY constraint failed")) ∧
    (fsR.save r).2 = .ok r ∧
    (fsR.save r).1.find_by_id r.relationshipId = .ok (some r) := by
  refine ⟨?_, ?_, ?_⟩
  · unfold SQLiteRelationshipRepository.save
    rw [hrid2]
    simp only [Bool.false_eq_true, if_false]
    rw [if_pos]
    simp [hfk, htgt]
  · unfold FileBasedRelationshipRepository.save FileBasedRelationshipRepository.saveTry
    rw [hrid]
    simp only [Bool.false_eq_true, if_false]
    rw [hex]
  · unfold FileBasedRelationshipRepository.save FileBasedRelationshipRepository.saveTry
    rw [hrid]
    simp only [Bool.false_eq_true, if_false]
    rw [hex]
    simp only [FileBasedRelationshipRepository.find_by_id,
      FileBasedRelationshipRepository.updateIndexAdd]
    rw [dictGet_dictSet_self]

/-- C5 witness: database holding only asset "aa", relationship "rl1" from
"aa" to the absent "bb", and an empty file-backed relationship store. -/
theorem relationship_fk_divergence_witness :
    (dbA.fkEnabled = true ∧ dbA.hasAsset relAB.targetId = false) ∧
    (SQLiteRelationshipRepository.save dbA relAB =
      (dbA, .error (.repositoryError
        "Failed to save relationship: FOREIGN KEY constraint failed")) ∧
     (FileBasedRelationshipRepository.empty.save relAB).2 = .ok relAB ∧
     (FileBasedRelationshipRepository.empty.save relAB).1.find_by_id
       relAB.relationshipId = .ok (some relAB)) :=
  ⟨⟨rfl, by decide⟩,
   relationship_fk_divergence dbA FileBasedRelationshipRepository.empty relAB
     rfl (by decide) (by decide) (by decide) (by decide)⟩

/-- C1 counterexample: a file-backend save on the empty store that faults
right after the entity-file write raises (wrapped as RepositoryError) yet
leaves the store different from its prior state — the entity file is
present while no index was updated. -/
theorem file_save_fault_counterexample :
    (FileBasedAssetRepository.empty.saveWithFault assetA 1).2 =
      .error (.repositoryError "Failed to save asset: I/O error") ∧
    (FileBasedAssetRepository.empty.saveWithFault assetA 1).1 ≠
      FileBasedAssetRepository.empty := by
  constructor
  · rfl
  · decide

/-- C1 (amended): in the file backend each constituent write is atomic, but
a save that raises between its writes leaves the completed prefix visible —
when the fault hits right after the entity-file write, the operation raises
RepositoryError while the entity file for the asset persists and all three
index files are unchanged from before the call. -/
theorem file_save_fault_incomplete_write (s : FileBasedAssetRepository) (a : Asset)
    (hfresh : dictGet s.files a.assetId = none) :
    (s.saveWithFault a 1).2 =
      .error (.repositoryError "Failed to save asset: I/O error") ∧
    dictGet (s.saveWithFault a 1).1.files a.assetId = some a ∧
    (s.saveWithFault a 1).1.byType = s.byType ∧
    (s.saveWithFault a 1).1.byProvider = s.byProvider ∧
    (s.saveWithFault a 1).1.byTags = s.byTags := by
  unfold FileBasedAssetRepository.saveWithFault
  rw [hfresh]
  simp only [Option.isSome_none, Bool.false_eq_true, if_false]
  rw [if_pos (by simp [FileBasedAssetRepository.saveWrites])]
  refine ⟨rfl, ?_, rfl, rfl, rfl⟩
  simp only [FileBasedAssetRepository.saveWrites, List.take,
    List.foldl, FileBasedAssetRepository.applySaveWrite]
  exact dictGet_dictSet_self s.files a.assetId a

/-- C1 witness: the fault-after-entity-write save of a fresh asset on the
empty store. -/
theorem file_save_fault_incomplete_write_witness :
    dictGet FileBasedAssetRepository.empty.files assetA.assetId = none ∧
    ((FileBasedAssetRepository.empty.saveWithFault assetA 1).2 =
      .error (.repositoryError "Failed to save asset: I/O error") ∧
     dictGet (FileBasedAssetRepository.empty.saveWithFault assetA 1).1.files
       assetA.assetId = some assetA ∧
     (FileBasedAssetRepository.empty.saveWithFault assetA 1).1.byType =
       FileBasedAssetRepository.empty.byType ∧
     (FileBasedAssetRepository.empty.saveWithFault assetA 1).1.byProvider =
       FileBasedAssetRepository.empty.byProvider ∧
     (FileBasedAssetRepository.empty.saveWithFault assetA 1).1.byTags =
       FileBasedAssetRepository.empty.byTags) :=
  ⟨rfl, file_save_fault_incomplete_write FileBasedAssetRepository.empty assetA rfl⟩

end CloudScope

namespace CloudScope

/-- C2: evaluation at the failing inputs.  Saving a duplicate asset id (or a
duplicate relationship) in the file backend surfaces as a plain
RepositoryError — the `except Exception` clause of save re-wraps the
DuplicateAssetError/DuplicateRelationshipError, so no Duplicate subclass
reaches the caller (which also makes save_batch's `except
DuplicateAssetError` handler unreachable); the graph backend without a
fallback does the same; only the SQLite backend lets the Duplicate
subclasses escape as the claim requires. -/
theorem duplicate_error_kind_lost :
    (storeA.save assetA).2 =
      .error (.repositoryError "Failed to save asset: Asset aa already exists") ∧
    (relStoreA.save relAB).2 =
      .error (.repositoryError
        "Failed to save relationship: Relationship rl1 already exists") ∧
    ((⟨true, none, graphIso⟩ : MemgraphAssetRepository).save assetA).2 =
      .error (.repositoryError "Failed to save asset: Asset aa already exists") ∧
    (SQLiteAssetRepository.save dbA assetA).2 =
      .error (.duplicateAsset "Asset aa already exists") ∧
    (SQLiteRelationshipRepository.save dbABR relAB2).2 =
      .error (.duplicateRelationship "Relationship already exists between these assets") := by
  exact ⟨rfl, rfl, rfl, rfl, rfl⟩

/-- C3: evaluation at the failing input.  A file-backend batch consisting
entirely of already-stored ids raises RepositoryError instead of returning
the empty list, because each duplicate arrives as a wrapped RepositoryError
and lands in the error list rather than the skip-with-warning branch; the
SQLite backend implements the claimed semantics on the same inputs: an
all-duplicate batch returns [] without raising, and a batch of N items with
M duplicates returns the N−M fresh items and grows the count by N−M (the
file backend also returns the N−M fresh items once at least one save
succeeds). -/
theorem batch_of_duplicates_raises :
    (storeA.save_batch [assetA]).2 =
      .error (.repositoryError
        "Batch save failed: aa: Failed to save asset: Asset aa already exists") ∧
    (storeA.save_batch [assetA]).1.count = storeA.count ∧
    (storeA.save_batch [assetA, assetB]).2 = .ok [assetB] ∧
    (storeA.save_batch [assetA, assetB]).1.count = storeA.count + 1 ∧
    (SQLiteAssetRepository.save_batch dbA [assetA]).2 = .ok [] ∧
    SQLiteAssetRepository.count (SQLiteAssetRepository.save_batch dbA [assetA]).1 =
      SQLiteAssetRepository.count dbA ∧
    (SQLiteAssetRepository.save_batch dbA [assetA, assetB]).2 = .ok [assetB] ∧
    SQLiteAssetRepository.count
        (SQLiteAssetRepository.save_batch dbA [assetA, assetB]).1 =
      SQLiteAssetRepository.count dbA + 1 := by
  exact ⟨rfl, rfl, rfl, rfl, rfl, rfl, rfl, rfl⟩

end CloudScope

namespace CloudScope

/-- C6: deleting a stored asset reports success, a subsequent find_by_id
returns None, and the asset id is gone from every key of the three
secondary index maps of the file backend (keys whose lists became empty
having been removed entirely); in the SQLite backend the deleted id
likewise disappears from lookup and from the asset_tags table (its tag
secondary index) through the foreign-key cascade. -/
theorem delete_then_find_none_and_unindexed
    (s : FileBasedAssetRepository) (id : String) (a : Asset) (db : SQLiteDatabase)
    (hw : s.WellIndexed) (ha : dictGet s.files id = some a)
    (hfk : db.fkEnabled = true) (hdb : db.hasAsset id = true) :
    (s.delete id).2 = .ok true ∧
    (s.delete id).1.find_by_id id = .ok none ∧
    (∀ k, ¬ idxMem (s.delete id).1.byType k id) ∧
    (∀ k, ¬ idxMem (s.delete id).1.byProvider k id) ∧
    (∀ k, ¬ idxMem (s.delete id).1.byTags k id) ∧
    (∀ k l, dictGet (s.delete id).1.byType k = some l → l ≠ []) ∧
    (∀ k l, dictGet (s.delete id).1.byProvider k = some l → l ≠ []) ∧
    (∀ k l, dictGet (s.delete id).1.byTags k = some l → l ≠ []) ∧
    (SQLiteAssetRepository.delete db id).2 = .ok true ∧
    SQLiteAssetRepository.find_by_id (SQLiteAssetRepository.delete db id).1 id =
      .ok none ∧
    (∀ row ∈ (SQLiteAssetRepository.delete db id).1.assetTags,
      (row : String × String × String).1 ≠ id) := by
  obtain ⟨h1, h2, h3, h4, h5, h6, h7, h8⟩ :=
    FileBasedAssetRepository.delete_spec s id a hw ha
  refine ⟨h1, ?_, h3, h4, h5, h6, h7, h8, ?_, ?_, ?_⟩
  · simp only [FileBasedAssetRepository.find_by_id, h2]
  · simp only [SQLiteAssetRepository.delete]
    rw [hdb]
  · simp only [SQLiteAssetRepository.delete, SQLiteAssetRepository.find_by_id]
    rw [List.find?_eq_none.2]
    intro x hx
    have := (List.mem_filter.1 hx).2
    simp only [Bool.not_eq_eq_eq_not, Bool.not_true] at this
    simp [this]
  · intro row hrow
    simp only [SQLiteAssetRepository.delete, hfk, if_true] at hrow
    have := (List.mem_filter.1 hrow).2
    simp only [Bool.not_eq_eq_eq_not, Bool.not_true] at this
    intro hcontra
    rw [hcontra] at this
    simp at this

/-- C6 witness: the store holding exactly asset "aa" and the database
holding one "aa" row with its tag. -/
theorem delete_then_find_none_and_unindexed_witness :
    storeA.WellIndexed ∧ dictGet storeA.files "aa" = some assetA ∧
    dbA.fkEnabled = true ∧ dbA.hasAsset "aa" = true ∧
    ((storeA.delete "aa").2 = .ok true ∧
     (storeA.delete "aa").1.find_by_id "aa" = .ok none ∧
     (∀ k, ¬ idxMem (storeA.delete "aa").1.byType k "aa") ∧
     (∀ k, ¬ idxMem (storeA.delete "aa").1.byProvider k "aa") ∧
     (∀ k, ¬ idxMem (storeA.delete "aa").1.byTags k "aa") ∧
     (∀ k l, dictGet (storeA.delete "aa").1.byType k = some l → l ≠ []) ∧
     (∀ k l, dictGet (storeA.delete "aa").1.byProvider k = some l → l ≠ []) ∧
     (∀ k l, dictGet (storeA.delete "aa").1.byTags k = some l → l ≠ []) ∧
     (SQLiteAssetRepository.delete dbA "aa").2 = .ok true ∧
     SQLiteAssetRepository.find_by_id (SQLiteAssetRepository.delete dbA "aa").1 "aa" =
       .ok none ∧
     (∀ row ∈ (SQLiteAssetRepository.delete dbA "aa").1.assetTags,
       (row : String × String × String).1 ≠ "aa")) :=
  ⟨by constructor <;> decide, by decide, rfl, by decide,
   delete_then_find_none_and_unindexed storeA "aa" assetA dbA
     (by constructor <;> decide) (by decide) rfl (by decide)⟩

end CloudScope

namespace CloudScope

/-- C7 counterexample: on the store holding asset "aa" (type compute,
provider aws, tag env=prod), updating only the tag value to env=dev — a
tags-only change — nevertheless rewrites the by_type and by_provider index
files: both appear in the update's write log, refuting "the by_type and
by_provider index files are left untouched". -/
theorem tags_only_update_rewrites_type_index :
    dictGet storeA.files assetADev.assetId = some assetA ∧
    assetA.assetType = assetADev.assetType ∧
    assetA.provider = assetADev.provider ∧
    assetA.tags ≠ assetADev.tags ∧
    FileBasedAssetRepository.IdxFile.typeIdx ∈ (storeA.update assetADev 5).2.1 ∧
    FileBasedAssetRepository.IdxFile.providerIdx ∈ (storeA.update assetADev 5).2.1 := by
  decide

/-- C7 (amended): update diff-checks whether any of type, provider or tags
changed.  When none changed, no index file is written at all; but when any
dimension changed — a tags-only change included — it runs a full
remove-then-add pass over all three index files, so by_type and
by_provider are rewritten (twice each) even though their content is
preserved up to list order: on a well-indexed store a tags-only update
leaves the set of ids under every type key and every provider key
unchanged. -/
theorem update_diff_check_spec (s : FileBasedAssetRepository) (a old : Asset)
    (now : Nat) (hw : s.WellIndexed) (ha : dictGet s.files a.assetId = some old) :
    (old.assetType = a.assetType → old.provider = a.provider → old.tags = a.tags →
      (s.update a now).2.1 = []) ∧
    (old.assetType = a.assetType → old.provider = a.provider → old.tags ≠ a.tags →
      (s.update a now).2.1 =
        [.typeIdx, .providerIdx, .tagIdx, .typeIdx, .providerIdx, .tagIdx] ∧
      (∀ k id', idxMem (s.update a now).1.byType k id' ↔ idxMem s.byType k id') ∧
      (∀ k id', idxMem (s.update a now).1.byProvider k id' ↔ idxMem s.byProvider k id')) := by
  constructor
  · intro hty hpr htg
    rw [FileBasedAssetRepository.update_run_unchanged s a old now ha hty hpr htg]
  · intro hty hpr htg
    exact FileBasedAssetRepository.update_tags_only_spec s a old now hw ha hty hpr htg

/-- C7 witness: the tags-only update of "aa" from env=prod to env=dev. -/
theorem update_diff_check_spec_witness :
    storeA.WellIndexed ∧ dictGet storeA.files assetADev.assetId = some assetA ∧
    ((storeA.update assetADev 5).2.1 =
       [.typeIdx, .providerIdx, .tagIdx, .typeIdx, .providerIdx, .tagIdx] ∧
     (∀ k id', idxMem (storeA.update assetADev 5).1.byType k id' ↔
        idxMem storeA.byType k id') ∧
     (∀ k id', idxMem (storeA.update assetADev 5).1.byProvider k id' ↔
        idxMem storeA.byProvider k id')) :=
  ⟨by constructor <;> decide, by decide,
   (update_diff_check_spec storeA assetADev assetA 5
      (by constructor <;> decide) (by decide)).2
     (by decide) (by decide) (by decide)⟩

/-- Does a statistics dict carry a metric named `k`, either top-level or
inside one of its nested metric dicts?  Histogram dicts such as `by_type`
map data values (relationship-type names), not metric names, and are not
searched. -/
def statsHasKey (st : List (String × StatVal)) (k : String) : Bool :=
  st.any (fun e =>
    e.1 == k ||
    match e.2 with
    | .dictRatV d => d.any (fun q => q.1 == k)
    | _ => false)

/-- C8 counterexample: the file backend's graph statistics on the store
holding relationship "rl1" have a max-degree metric but no minimum-degree
metric and no density metric, refuting the claim that every backend
returns degree statistics including min together with a density
estimate. -/
theorem file_graph_stats_lack_min_and_density :
    statsHasKey ((relStoreA.get_graph_statistics).toOption.getD []) "max_degree" = true ∧
    statsHasKey ((relStoreA.get_graph_statistics).toOption.getD []) "min" = false ∧
    statsHasKey ((relStoreA.get_graph_statistics).toOption.getD []) "min_degree" = false ∧
    statsHasKey ((relStoreA.get_graph_statistics).toOption.getD []) "density" = false := by
  decide

/-- C8 (amended): the three backends expose different graph-metric sets.
The file backend returns node count, edge count, the type list and
histogram, and average and max degree — no minimum degree and no density;
the SQLite backend returns degree statistics with average, max and min —
but no density; only the graph backend returns a density, equal to
`round(2·edges / (nodes·(nodes−1)), 4)` when it has more than one node and
0 otherwise, where its node count — unlike the other two backends' count of
distinct relationship endpoints — counts every Asset node, isolated ones
included. -/
theorem graph_statistics_shape (s : FileBasedRelationshipRepository)
    (db : SQLiteDatabase) (repo : MemgraphRelationshipRepository)
    (havail : repo.available = true) :
    ((s.get_graph_statistics).toOption.getD []).map Prod.fst =
      ["node_count", "edge_count", "relationship_types", "average_degree",
       "max_degree", "by_type"] ∧
    statsHasKey ((s.get_graph_statistics).toOption.getD []) "min" = false ∧
    statsHasKey ((s.get_graph_statistics).toOption.getD []) "density" = false ∧
    ((SQLiteRelationshipRepository.get_graph_statistics db).toOption.getD []).map
        Prod.fst =
      ["node_count", "edge_count", "relationship_types", "by_type",
       "degree_statistics", "confidence_statistics"] ∧
    statsHasKey
      ((SQLiteRelationshipRepository.get_graph_statistics db).toOption.getD [])
      "min" = true ∧
    statsHasKey
      ((SQLiteRelationshipRepository.get_graph_statistics db).toOption.getD [])
      "density" = false ∧
    dictGet ((repo.get_graph_statistics).toOption.getD []) "node_count" =
      some (.natV repo.graph.nodes.length) ∧
    dictGet ((repo.get_graph_statistics).toOption.getD []) "graph_properties" =
      some (.dictRatV [("density",
        if 1 < repo.graph.nodes.length then
          pyRound
            ((2 * ((MemgraphRelationshipRepository.incidences repo.graph / 2 : Nat) : ℚ)) /
              ((repo.graph.nodes.length : ℚ) * ((repo.graph.nodes.length : ℚ) - 1))) 4
        else 0)]) := by
  have huf : repo.useFallback = false := by
    simp [MemgraphRelationshipRepository.useFallback, havail]
  refine ⟨rfl, rfl, rfl, rfl, rfl, rfl, ?_, ?_⟩
  · unfold MemgraphRelationshipRepository.get_graph_statistics
    rw [huf]
    simp only [Bool.false_eq_true, if_false]
    rfl
  · unfold MemgraphRelationshipRepository.get_graph_statistics
    rw [huf]
    simp only [Bool.false_eq_true, if_false]
    rfl

/-- C8 witness: the file store holding "rl1", the database holding the same
graph, and an available graph backend holding one isolated node (whose
node count is 1 even though no id occurs as a relationship endpoint). -/
theorem graph_statistics_shape_witness :
    repoIso.available = true ∧
    (((relStoreA.get_graph_statistics).toOption.getD []).map Prod.fst =
      ["node_count", "edge_count", "relationship_types", "average_degree",
       "max_degree", "by_type"] ∧
     statsHasKey ((relStoreA.get_graph_statistics).toOption.getD []) "min" = false ∧
     statsHasKey ((relStoreA.get_graph_statistics).toOption.getD []) "density" = false ∧
     ((SQLiteRelationshipRepository.get_graph_statistics dbABR).toOption.getD []).map
         Prod.fst =
       ["node_count", "edge_count", "relationship_types", "by_type",
        "degree_statistics", "confidence_statistics"] ∧
     statsHasKey
       ((SQLiteRelationshipRepository.get_graph_statistics dbABR).toOption.getD [])
       "min" = true ∧
     statsHasKey
       ((SQLiteRelationshipRepository.get_graph_statistics dbABR).toOption.getD [])
       "density" = false ∧
     dictGet ((repoIso.get_graph_statistics).toOption.getD []) "node_count" =
       some (.natV repoIso.graph.nodes.length) ∧
     dictGet ((repoIso.get_graph_statistics).toOption.getD []) "graph_properties" =
       some (.dictRatV [("density",
         if 1 < repoIso.graph.nodes.length then
           pyRound
             ((2 * ((MemgraphRelationshipRepository.incidences repoIso.graph / 2 : Nat) : ℚ)) /
               ((repoIso.graph.nodes.length : ℚ) *
                 ((repoIso.graph.nodes.length : ℚ) - 1))) 4
         else 0)])) :=
  ⟨rfl, graph_statistics_shape relStoreA dbABR repoIso rfl⟩

end CloudScope
